import Mathlib

/-!
Verification development for the revm-jit EVM translator
(crates/revm-jit/src/compiler.rs).

The development shallow-embeds the runtime behaviour of the native code that
the translator emits: `FunctionCx::translate` drives one basic block per
decoded instruction, and `FunctionCx::translate_inst` lowers each opcode into
loads/stores on the caller-provided stack, a stack-length word, a gas record,
and calls to runtime callbacks.  Every helper below mirrors one helper of
`FunctionCx` (the source function is named in the doc comment).  256-bit EVM
words are modelled as `Nat` with arithmetic taken modulo `2 ^ 256`; the u64
gas counters are `Nat` modulo `2 ^ 64`.  Out-of-bounds accesses to the
1024-word stack area (undefined behaviour in the emitted code) are made
explicit as a distinguished `oob` outcome.

The bytecode analyser (the `bytecode` module) and the gas module are not part
of the sources under verification; where a definition can only come from
them, its doc comment starts with the words Modelled from the spec.
-/

set_option maxRecDepth 40000

namespace RevmJit

/-- Modulus of 256-bit EVM words. -/
def wordMod : Nat := 2 ^ 256

/-- Modulus of the 64-bit gas counters. -/
def u64Mod : Nat := 2 ^ 64

/-- Modulus used by the 32-bit truncation in the dynamic jump table. -/
def u32Mod : Nat := 2 ^ 32

/-- Two's-complement minimum of a 256-bit word, `I256_MIN` in src/lib.rs. -/
def I256_MIN : Nat := 2 ^ 255

/-- The one-byte status codes returned by the compiled function
(revm's InstructionResult, as used by compiler.rs). -/
inductive InstructionResult where
  | Continue
  | Stop
  | Ret
  | Revert
  | CallOrCreate
  | SelfDestructed
  | StackUnderflow
  | StackOverflow
  | OutOfGas
  | InvalidJump
  | InvalidFEOpcode
  | OpcodeNotFound
  | NotActivated
  | StateChangeDuringStaticCall
  deriving DecidableEq

/-- The gas record the compiled function reads and writes through the `gas`
pointer argument: fields `limit`, `remaining` and `remaining_nomem` of the
`pf::Gas` struct (compiler.rs, `mod pf`).  `limit` is never written. -/
structure Gas where
  limit : Nat
  remaining : Nat
  remaining_nomem : Nat
  deriving DecidableEq

/-- Modelled from the spec: revm's `Gas::spent` (the gas module is not in
src/); spent gas is the limit minus the remaining gas. -/
def Gas.spent (g : Gas) : Nat := g.limit - g.remaining

/-- The `usub_overflow` builder intrinsic on u64: wrapping difference together
with the borrow flag. -/
def usub_overflow (a b : Nat) : Nat × Bool :=
  ((a + u64Mod - b % u64Mod) % u64Mod, decide (a < b))

/-- Embedding of `FunctionCx::gas_cost` (compiler.rs lines 1379..1394): load
`remaining`, compute `usub_overflow(remaining, cost)`, return `OutOfGas` on
overflow before any store; otherwise store the wrapped difference
`remaining_nomem - cost` (no overflow check) and store the result to
`remaining`. -/
def gas_cost (cost : Nat) (gas : Gas) : Except InstructionResult Gas :=
  let ro := usub_overflow gas.remaining cost
  if ro.2 then .error .OutOfGas
  else
    let nomem := (gas.remaining_nomem + u64Mod - cost % u64Mod) % u64Mod
    .ok { gas with remaining := ro.1, remaining_nomem := nomem }

/-- Embedding of the static-gas charge of `FunctionCx::translate_inst`
(lines 615..620) together with `gas_cost_imm` (lines 1370..1376): nothing is
emitted when gas is disabled, when the instruction has no static gas, or when
the cost is zero. -/
def static_charge (dis : Bool) (g : Option Nat) (gas : Gas) :
    Except InstructionResult Gas :=
  match g with
  | none => .ok gas
  | some c => if dis ∨ c = 0 then .ok gas else gas_cost c gas

/-- The runtime callbacks the emitted code may call (the `Callback` enum).
Only the callbacks reachable from the embedded opcodes are listed. -/
inductive CallbackId where
  | AddMod
  | MulMod
  | Exp
  | Keccak256
  | Mload
  | Mstore
  | Mstore8
  | Sload
  | Sstore
  | Tload
  | Tstore
  | Log
  | Create
  | DoReturn
  | SelfDestruct
  deriving DecidableEq

/-- The machine state the compiled function mutates: the 1024-word stack area
(modelled as a total function, indices outside `[0, 1024)` are out of
bounds), the stack length word, and the gas record.  `trace` is ghost
instrumentation recording which callbacks have been invoked. -/
structure S where
  stack : Nat → Nat
  len : Nat
  gas : Gas
  trace : List CallbackId

/-- Early exits of a single instruction's lowered code: a `ret` of a status
byte from the compiled function, an out-of-bounds stack access (undefined
behaviour in the emitted code), or an opcode whose lowering is not part of
this embedding. -/
inductive Fail where
  | ret (r : InstructionResult)
  | oob
  | unimplemented
  deriving DecidableEq

/-- Result of running an emitted code fragment from a state. -/
inductive Res (α : Type) where
  | ok (a : α) (s : S)
  | fail (f : Fail) (s : S)

/-- State-and-early-exit monad for emitted code fragments.  A failure keeps
the state at the failure point, which is what the emitted code observes:
`build_failure` returns from the compiled function without undoing stores. -/
def M (α : Type) : Type := S → Res α

instance : Monad M where
  pure a := fun s => .ok a s
  bind x f := fun s =>
    match x s with
    | .ok a s1 => f a s1
    | .fail e s1 => .fail e s1

/-- Return from the compiled function or flag undefined behaviour. -/
def throwF {α : Type} (f : Fail) : M α := fun s => .fail f s

/-- Ghost-trace a callback invocation. -/
def trace_callback (cb : CallbackId) : M Unit :=
  fun s => .ok () { s with trace := s.trace ++ [cb] }

/-- Embedding of `FunctionCx::load_len`. -/
def load_len : M Nat := fun s => .ok s.len s

/-- Embedding of `FunctionCx::store_len`. -/
def store_len (n : Nat) : M Unit := fun s => .ok () { s with len := n }

/-- Embedding of `FunctionCx::load_gas_remaining`. -/
def load_gas_remaining : M Nat := fun s => .ok s.gas.remaining s

/-- Pointwise update of the stack area. -/
def updFn (f : Nat → Nat) (i v : Nat) : Nat → Nat :=
  fun j => if j = i then v else f j

/-- A load through `sp_at`: reading the stack word at index `i`.  Indices
outside the 1024-word area are out-of-bounds accesses. -/
def stack_read (i : Int) : M Nat := fun s =>
  if 0 ≤ i ∧ i < 1024 then .ok (s.stack i.toNat) s else .fail .oob s

/-- A store through `sp_at`: writing the stack word at index `i`. -/
def stack_write (i : Int) (v : Nat) : M Unit := fun s =>
  if 0 ≤ i ∧ i < 1024 then .ok () { s with stack := updFn s.stack i.toNat v }
  else .fail .oob s

/-- Embedding of `FunctionCx::build_failure` (lines 1403..1432): branch to a
cold block that returns `ret` when the condition holds, otherwise continue. -/
def build_failure (cond : Bool) (r : InstructionResult) : M Unit :=
  if cond then throwF (.ret r) else pure ()

/-- The static-gas charge lifted into the fragment monad. -/
def charge_static (dis : Bool) (g : Option Nat) : M Unit := fun s =>
  match static_charge dis g s.gas with
  | .error r => .fail (.ret r) s
  | .ok g2 => .ok () { s with gas := g2 }

/-- Embedding of `FunctionCx::load_len_at_least` (lines 1250..1258): load the
length and, for `n > 0`, return `StackUnderflow` when it is below `n`. -/
def load_len_at_least (n : Nat) : M Nat := do
  let len ← load_len
  build_failure (decide (0 < n ∧ len < n)) .StackUnderflow
  pure len

/-- Embedding of `FunctionCx::load_len_for_push` (lines 1193..1199): load the
length and return `StackOverflow` when it exceeds `1024 - n`. -/
def load_len_for_push (n : Nat) : M Nat := do
  let len ← load_len
  build_failure (decide (len > 1024 - n)) .StackOverflow
  pure len

/-- Embedding of `FunctionCx::pop` / `popn::<1>` with loading (lines
1202..1226): bound-check for one value, load the top word, then store the
decremented length. -/
def pop1 : M Nat := do
  let len ← load_len_at_least 1
  let a ← stack_read ((len : Int) - 1)
  store_len (len - 1)
  pure a

/-- Embedding of `FunctionCx::popn::<2>` with loading: bound-check for two
values, load the top word `a` and the next word `b`, then store the length
decremented by two. -/
def popn2 : M (Nat × Nat) := do
  let len ← load_len_at_least 2
  let a ← stack_read ((len : Int) - 1)
  let b ← stack_read ((len : Int) - 2)
  store_len (len - 2)
  pure (a, b)

/-- Embedding of `FunctionCx::push_unchecked` / `pushn_unchecked_len` (lines
1173..1191) for a single value: no bound check. -/
def push_unchecked (v : Nat) : M Unit := do
  let len ← load_len
  stack_write ((len : Int)) v
  store_len (len + 1)

/-- Embedding of `FunctionCx::push` / `pushn` (lines 1162..1171): overflow
check, then store the value and the incremented length. -/
def push (v : Nat) : M Unit := do
  let len ← load_len_for_push 1
  stack_write ((len : Int)) v
  store_len (len + 1)

/-- Embedding of `FunctionCx::pop_sp` (lines 1229..1237): bound-check for
`n`, store the length decremented by `n`, and return the pre-pop length (the
argument base for callbacks). -/
def pop_sp (n : Nat) : M Nat := do
  let len ← load_len_at_least n
  store_len (len - n)
  pure len

/-- Embedding of `FunctionCx::pop_top_sp` (lines 1241..1248): bound-check for
`n`, store the length decremented by `n - 1` when `n > 1`, and return the
pre-pop length. -/
def pop_top_sp (n : Nat) : M Nat := do
  let len ← load_len_at_least n
  if n > 1 then store_len (len - (n - 1)) else pure ()
  pure len

/-- Embedding of `FunctionCx::fail_if_staticcall` (lines 1260..1266): load
`ecx.is_static` and return `ret` when it is set. -/
def fail_if_staticcall (s_flag : Bool) (r : InstructionResult) : M Unit :=
  build_failure s_flag r

/-- Oracle for the external runtime callbacks: given the callback and the
argument words read downward from the argument base, it yields the returned
status byte and the words the callback writes back below the base. -/
def Cbs : Type := CallbackId → List Nat → InstructionResult × List Nat

/-- Read `k` argument words downward starting below `base` (the callback
reads `base - 1`, `base - 2`, ...). -/
def read_args (base : Int) : Nat → M (List Nat)
  | 0 => pure []
  | k + 1 => do
    let v ← stack_read (base - 1)
    let rest ← read_args (base - 1) k
    pure (v :: rest)

/-- Write the callback's output words downward starting below `base`. -/
def write_outs (base : Int) : List Nat → M Unit
  | [] => pure ()
  | v :: vs => do
    stack_write (base - 1) v
    write_outs (base - 1) vs

/-- Embedding of `FunctionCx::callback` (lines 1481..1486): invoke the
callback with the stack pointer at `base`; the oracle decides the returned
status and the stack writes the callback performs. -/
def callback_call (cbs : Cbs) (cb : CallbackId) (nargs base : Nat) :
    M InstructionResult := do
  trace_callback cb
  let args ← read_args (base : Int) nargs
  let ro := cbs cb args
  write_outs (base : Int) ro.2
  pure ro.1

/-- Embedding of `FunctionCx::callback_ir` (lines 1474..1479): invoke the
callback and return its status from the compiled function when it is not
`Continue`. -/
def callback_ir (cbs : Cbs) (cb : CallbackId) (nargs base : Nat) : M Unit := do
  let r ← callback_call cbs cb nargs base
  if r = .Continue then pure () else throwF (.ret r)

/-- Embedding of `FunctionCx::dup` (lines 1268..1280): underflow check for
`n`, load the word `n` below the top, then a checked push. -/
def dup (n : Nat) : M Unit := do
  let len ← load_len
  build_failure (decide (len < n)) .StackUnderflow
  let v ← stack_read ((len : Int) - (n : Int))
  push v

/-- Embedding of `FunctionCx::swap` (lines 1282..1299): underflow check for
`n` (exactly as in the source), load the words at depth `n + 1` and depth 1,
and store them back exchanged. -/
def swap (n : Nat) : M Unit := do
  let len ← load_len
  build_failure (decide (len < n)) .StackUnderflow
  let a ← stack_read ((len : Int) - ((n : Int) + 1))
  let b ← stack_read ((len : Int) - 1)
  stack_write ((len : Int) - 1) a
  stack_write ((len : Int) - ((n : Int) + 1)) b

/-- Two's-complement reading of a 256-bit word. -/
def toSigned (w : Nat) : Int :=
  if w < I256_MIN then (w : Int) else (w : Int) - (wordMod : Int)

/-- Two's-complement encoding of an integer into a 256-bit word. -/
def ofSigned (i : Int) : Nat := (i % (wordMod : Int)).toNat

/-- Truncated (round-toward-zero) integer division, the LLVM `sdiv`
semantics away from the overflow and zero-divisor cases. -/
def itdiv (a b : Int) : Int :=
  a.sign * b.sign * ((a.natAbs / b.natAbs : Nat) : Int)

/-- Truncated integer remainder (sign follows the dividend), the LLVM `srem`
semantics away from the zero-divisor case. -/
def itmod (a b : Int) : Int :=
  a.sign * ((a.natAbs % b.natAbs : Nat) : Int)

/-- ADD: wrapping addition. -/
def addFn (a b : Nat) : Nat := (a + b) % wordMod

/-- MUL: wrapping multiplication. -/
def mulFn (a b : Nat) : Nat := a * b % wordMod

/-- SUB: wrapping subtraction. -/
def subFn (a b : Nat) : Nat := (a + (wordMod - b % wordMod)) % wordMod

/-- DIV lowering (`binop!(@if_not_zero udiv)`, line 700): select 0 when the
divisor is zero, the unsigned quotient otherwise. -/
def divFn (a b : Nat) : Nat := if b = 0 then 0 else a / b

/-- SDIV lowering (compiler.rs lines 701..723): a lazy select on the divisor
being zero; the nonzero arm guards the pair `(I256_MIN, -1)` with an explicit
select of `I256_MIN` around the hardware `sdiv`. -/
def sdivFn (a b : Nat) : Nat :=
  if b = 0 then 0
  else if a = I256_MIN ∧ b = wordMod - 1 then I256_MIN
  else ofSigned (itdiv (toSigned a) (toSigned b))

/-- MOD lowering: select 0 when the divisor is zero. -/
def modFn (a b : Nat) : Nat := if b = 0 then 0 else a % b

/-- SMOD lowering: select 0 when the divisor is zero, signed remainder
otherwise. -/
def smodFn (a b : Nat) : Nat :=
  if b = 0 then 0 else ofSigned (itmod (toSigned a) (toSigned b))

/-- SIGNEXTEND lowering (lines 739..784): a lazy select on `ext < 31`; the
active arm computes bit index `8 * ext + 7`, tests that bit of `x`, and
either sets or clears all bits above it. -/
def signextendFn (ext x : Nat) : Nat :=
  if ext < 31 then
    let bitIndex := 8 * ext + 7
    let bit := x >>> bitIndex &&& 1
    let mask := 2 ^ bitIndex - 1
    let notMask := (wordMod - 1) ^^^ mask
    if bit ≠ 0 then x ||| notMask else x &&& mask
  else x

/-- LT: unsigned comparison zero-extended to a word. -/
def ltFn (a b : Nat) : Nat := if a < b then 1 else 0

/-- GT. -/
def gtFn (a b : Nat) : Nat := if b < a then 1 else 0

/-- SLT: signed comparison. -/
def sltFn (a b : Nat) : Nat := if toSigned a < toSigned b then 1 else 0

/-- SGT. -/
def sgtFn (a b : Nat) : Nat := if toSigned b < toSigned a then 1 else 0

/-- EQ. -/
def eqFn (a b : Nat) : Nat := if a = b then 1 else 0

/-- ISZERO. -/
def iszeroFn (a : Nat) : Nat := if a = 0 then 1 else 0

/-- AND. -/
def andFn (a b : Nat) : Nat := a &&& b

/-- OR. -/
def orFn (a b : Nat) : Nat := a ||| b

/-- XOR. -/
def xorFn (a b : Nat) : Nat := a ^^^ b

/-- NOT: bitwise complement within 256 bits. -/
def notFn (a : Nat) : Nat := (wordMod - 1) ^^^ a

/-- BYTE lowering (lines 811..826): select 0 for `index >= 32`, otherwise
byte `index` counted from the most significant end. -/
def byteFn (index value : Nat) : Nat :=
  if index < 32 then value >>> ((31 - index) * 8) &&& 0xFF else 0

/-- SHL (`binop!(@rev ishl)`): the shift amount is the top operand.  Shift
amounts of 256 or more produce 0 (the emitted `shl` on i256). -/
def shlFn (shift value : Nat) : Nat :=
  if shift < 256 then value * 2 ^ shift % wordMod else 0

/-- SHR: logical right shift. -/
def shrFn (shift value : Nat) : Nat :=
  if shift < 256 then value % wordMod >>> shift else 0

/-- SAR: arithmetic right shift (floor division by a power of two). -/
def sarFn (shift value : Nat) : Nat :=
  if shift < 256 then ofSigned (Int.ediv (toSigned value) (2 ^ shift))
  else if toSigned value < 0 then wordMod - 1 else 0

/-- Flags of a decoded instruction (`InstrFlags` of the bytecode module, as
consumed by `translate_inst`). -/
structure InstFlags where
  disabled : Bool := false
  unknown : Bool := false
  skip_logic : Bool := false
  static_jump : Bool := false
  invalid_jump : Bool := false
  deriving DecidableEq

/-- A decoded instruction (`InstData`): the opcode byte, its program
counter, its flags, the `data` payload (static-jump target index for static
jumps, immediate byte offset for pushes), and its static gas. -/
structure InstData where
  opcode : Nat
  pc : Nat
  flags : InstFlags := {}
  data : Nat := 0
  static_gas : Option Nat := none
  deriving DecidableEq

/-- An analysed bytecode: the raw bytes and the decoded instruction list. -/
structure Program where
  raw : List Nat
  insts : List InstData

/-- Modelled from the spec: `Bytecode::get_imm_of` of the missing bytecode
module.  The immediate slice of `n` bytes at offset `off` into the raw code,
or nothing when it extends past the end of the code. -/
def get_imm (raw : List Nat) (off n : Nat) : Option (List Nat) :=
  if off + n ≤ raw.length then some ((raw.drop off).take n) else none

/-- Big-endian reading of a byte slice (`U256::from_be_slice`): at most 32
bytes, zero-extended to a word. -/
def beWord (bs : List Nat) : Nat := bs.foldl (fun acc b => acc * 256 + b) 0

/-- Big-endian reading of up to 32 bytes placed at the start of a zeroed
32-byte slot (the CALLDATALOAD scratch slot after the byte swap). -/
def beWordPad32 (bs : List Nat) : Nat := beWord bs * 256 ^ (32 - bs.length)

/-- The value pushed by PUSH1..PUSH32 (lines 1093..1099): the big-endian
immediate when present, the default word 0 when the analyser yields no
immediate slice. -/
def push_value (raw : List Nat) (inst : InstData) : Nat :=
  ((get_imm raw inst.data (inst.opcode - 0x5f)).map beWord).getD 0

/-- The value pushed by CALLDATALOAD (lines 853..890): a lazy select on
`index < input.len`; in bounds, `min(input.len - index, 32)` bytes starting
at `input + index` are copied into a zeroed 32-byte slot which is then
byte-swapped to native endianness; out of bounds, zero. -/
def calldataload_value (input : List Nat) (index : Nat) : Nat :=
  if index < input.length then
    beWordPad32 ((input.drop index).take (min (input.length - index) 32))
  else 0

/-- The read-only context of one execution: the contract's calldata, the
`ecx.is_static` byte, and the gas-disabled configuration. -/
structure ExecEnv where
  calldata : List Nat
  is_static : Bool
  disable_gas : Bool

/-- Where a successfully lowered instruction transfers control. -/
inductive JTgt where
  | direct (i : Nat)
  | table (t : Nat)
  deriving DecidableEq

/-- Outcome of one instruction's lowered block when it does not return. -/
inductive StepOut where
  | fallthrough
  | jump (t : JTgt)
  deriving DecidableEq

/-- Embedding of a `binop!`-style lowering: pop two words, push the result
without a second bound check. -/
def binop (f : Nat → Nat → Nat) : M StepOut := do
  let ab ← popn2
  push_unchecked (f ab.1 ab.2)
  pure .fallthrough

/-- Embedding of a `unop!`-style lowering. -/
def unop (f : Nat → Nat) : M StepOut := do
  let a ← pop1
  push_unchecked (f a)
  pure .fallthrough

/-- Embedding of the JUMP/JUMPI lowering (lines 1023..1061): invalid jumps
return immediately; a static jump branches to the recorded target
instruction; a dynamic jump pops the 256-bit target and branches to the
shared jump-table block; JUMPI additionally pops the condition and falls
through when it is zero. -/
def jump_sem (inst : InstData) (o : Nat) : M StepOut :=
  if inst.flags.invalid_jump then throwF (.ret .InvalidJump)
  else do
    let tgt ←
      if inst.flags.static_jump then pure (JTgt.direct inst.data)
      else do
        let t ← pop1
        pure (JTgt.table t)
    if o = 0x57 then do
      let cond ← pop1
      if cond ≠ 0 then pure (StepOut.jump tgt) else pure StepOut.fallthrough
    else pure (StepOut.jump tgt)

/-- Embedding of `FunctionCx::return_common` (lines 1302..1305). -/
def return_common (cbs : Cbs) : M Unit := do
  let sp ← pop_sp 2
  callback_ir cbs .DoReturn 2 sp

/-- Embedding of `FunctionCx::create_common` (lines 1307..1313): static-call
guard, pop the arguments, invoke the Create callback, and return
`CallOrCreate`. -/
def create_common (env : ExecEnv) (cbs : Cbs) (is_create2 : Bool) :
    M StepOut := do
  fail_if_staticcall env.is_static .StateChangeDuringStaticCall
  let n := 3 + (if is_create2 then 1 else 0)
  let sp ← pop_sp n
  callback_ir cbs .Create n sp
  throwF (.ret .CallOrCreate)

/-- Embedding of the opcode dispatch of `FunctionCx::translate_inst` (lines
694..1157), one branch per source match arm, in source order. -/
def lower_op (env : ExecEnv) (cbs : Cbs) (prog : Program) (inst : InstData) :
    M StepOut :=
  if inst.opcode = 0x00 then throwF (.ret .Stop)
  else if inst.opcode = 0x01 then binop addFn
  else if inst.opcode = 0x02 then binop mulFn
  else if inst.opcode = 0x03 then binop subFn
  else if inst.opcode = 0x04 then binop divFn
  else if inst.opcode = 0x05 then binop sdivFn
  else if inst.opcode = 0x06 then binop modFn
  else if inst.opcode = 0x07 then binop smodFn
  else if inst.opcode = 0x08 then do
    let sp ← pop_top_sp 3
    let _ ← callback_call cbs .AddMod 3 sp
    pure .fallthrough
  else if inst.opcode = 0x09 then do
    let sp ← pop_top_sp 3
    let _ ← callback_call cbs .MulMod 3 sp
    pure .fallthrough
  else if inst.opcode = 0x0a then do
    let sp ← pop_top_sp 2
    callback_ir cbs .Exp 2 sp
    pure .fallthrough
  else if inst.opcode = 0x0b then binop signextendFn
  else if inst.opcode = 0x10 then binop ltFn
  else if inst.opcode = 0x11 then binop gtFn
  else if inst.opcode = 0x12 then binop sltFn
  else if inst.opcode = 0x13 then binop sgtFn
  else if inst.opcode = 0x14 then binop eqFn
  else if inst.opcode = 0x15 then unop iszeroFn
  else if inst.opcode = 0x16 then binop andFn
  else if inst.opcode = 0x17 then binop orFn
  else if inst.opcode = 0x18 then binop xorFn
  else if inst.opcode = 0x19 then unop notFn
  else if inst.opcode = 0x1a then binop byteFn
  else if inst.opcode = 0x1b then binop shlFn
  else if inst.opcode = 0x1c then binop shrFn
  else if inst.opcode = 0x1d then binop sarFn
  else if inst.opcode = 0x20 then do
    let sp ← pop_top_sp 2
    callback_ir cbs .Keccak256 2 sp
    pure .fallthrough
  else if inst.opcode = 0x35 then do
    let index ← pop1
    push_unchecked (calldataload_value env.calldata index)
    pure .fallthrough
  else if inst.opcode = 0x50 then do
    let len ← load_len_at_least 1
    store_len (len - 1)
    pure .fallthrough
  else if inst.opcode = 0x51 then do
    let sp ← pop_top_sp 1
    callback_ir cbs .Mload 1 sp
    pure .fallthrough
  else if inst.opcode = 0x52 then do
    let sp ← pop_sp 2
    callback_ir cbs .Mstore 2 sp
    pure .fallthrough
  else if inst.opcode = 0x53 then do
    let sp ← pop_sp 2
    callback_ir cbs .Mstore8 2 sp
    pure .fallthrough
  else if inst.opcode = 0x54 then do
    let sp ← pop_top_sp 1
    callback_ir cbs .Sload 1 sp
    pure .fallthrough
  else if inst.opcode = 0x55 then do
    fail_if_staticcall env.is_static .StateChangeDuringStaticCall
    let sp ← pop_sp 2
    callback_ir cbs .Sstore 2 sp
    pure .fallthrough
  else if inst.opcode = 0x56 ∨ inst.opcode = 0x57 then jump_sem inst inst.opcode
  else if inst.opcode = 0x58 then do
    push inst.pc
    pure .fallthrough
  else if inst.opcode = 0x5a then do
    let rem ← load_gas_remaining
    push rem
    pure .fallthrough
  else if inst.opcode = 0x5b then pure .fallthrough
  else if inst.opcode = 0x5c then do
    let sp ← pop_top_sp 1
    let _ ← callback_call cbs .Tload 1 sp
    pure .fallthrough
  else if inst.opcode = 0x5d then do
    fail_if_staticcall env.is_static .StateChangeDuringStaticCall
    let sp ← pop_sp 2
    let _ ← callback_call cbs .Tstore 2 sp
    pure .fallthrough
  else if inst.opcode = 0x5f then do
    push 0
    pure .fallthrough
  else if 0x60 ≤ inst.opcode ∧ inst.opcode ≤ 0x7f then do
    push (push_value prog.raw inst)
    pure .fallthrough
  else if 0x80 ≤ inst.opcode ∧ inst.opcode ≤ 0x8f then do
    dup (inst.opcode - 0x80 + 1)
    pure .fallthrough
  else if 0x90 ≤ inst.opcode ∧ inst.opcode ≤ 0x9f then do
    swap (inst.opcode - 0x90 + 1)
    pure .fallthrough
  else if 0xa0 ≤ inst.opcode ∧ inst.opcode ≤ 0xa4 then do
    fail_if_staticcall env.is_static .StateChangeDuringStaticCall
    let sp ← pop_sp (2 + (inst.opcode - 0xa0))
    callback_ir cbs .Log (2 + (inst.opcode - 0xa0)) sp
    pure .fallthrough
  else if inst.opcode = 0xf0 then create_common env cbs false
  else if inst.opcode = 0xf3 then do
    return_common cbs
    throwF (.ret .Ret)
  else if inst.opcode = 0xf5 then create_common env cbs true
  else if inst.opcode = 0xfd then do
    return_common cbs
    throwF (.ret .Revert)
  else if inst.opcode = 0xfe then throwF (.ret .InvalidFEOpcode)
  else if inst.opcode = 0xff then do
    fail_if_staticcall env.is_static .StateChangeDuringStaticCall
    let sp ← pop_sp 1
    callback_ir cbs .SelfDestruct 1 sp
    throwF (.ret .SelfDestructed)
  else throwF .unimplemented

/-- Embedding of the per-instruction prologue of `FunctionCx::translate_inst`
(lines 562..624): DISABLED instructions return `NotActivated` and UNKNOWN
ones `OpcodeNotFound` before any gas is paid; then the static gas is
charged; then SKIP_LOGIC instructions fall through; then the opcode is
lowered. -/
def translate_inst (env : ExecEnv) (cbs : Cbs) (prog : Program)
    (inst : InstData) : M StepOut := do
  if inst.flags.disabled then throwF (.ret .NotActivated)
  else if inst.flags.unknown then throwF (.ret .OpcodeNotFound)
  else do
    charge_static env.disable_gas inst.static_gas
    if inst.flags.skip_logic then pure .fallthrough
    else lower_op env cbs prog inst

/-- The switch cases of the dynamic jump table (lines 540..548): one case
per JUMPDEST instruction, mapping its PC to its instruction index; `i` is
the index of the first instruction of the list. -/
def jump_cases : Nat → List InstData → List (Nat × Nat)
  | _, [] => []
  | i, d :: ds =>
    (if d.opcode = 0x5b then [(d.pc, i)] else []) ++ jump_cases (i + 1) ds

/-- Semantics of the emitted `switch`: the destination of the first case
whose value matches, if any. -/
def switch_lookup (cases : List (Nat × Nat)) (v : Nat) : Option Nat :=
  match cases with
  | [] => none
  | c :: cs => if c.1 = v then some c.2 else switch_lookup cs v

/-- Embedding of the dynamic-jump-table finalisation (lines 531..549): the
incoming 256-bit target is truncated to 32 bits (`ireduce`), then switched
over all JUMPDEST PCs; `none` means the default block, which returns
`InvalidJump`. -/
def resolve_dynamic_jump (prog : Program) (t : Nat) : Option Nat :=
  switch_lookup (jump_cases 0 prog.insts) (t % u32Mod)

/-- Specification-side description of the jump table used by the amended
claim C1: the index of the first JUMPDEST instruction whose PC equals `v`. -/
def first_jumpdest_at : List InstData → Nat → Option Nat
  | [], _ => none
  | d :: ds, v =>
    if d.opcode = 0x5b ∧ d.pc = v then some 0
    else (first_jumpdest_at ds v).map (· + 1)

/-- Result of executing the whole compiled function. -/
inductive ExecResult where
  | done (r : InstructionResult) (s : S)
  | oobAccess (s : S)
  | unimpl (s : S)
  | outOfFuel (s : S)

/-- Fuel-indexed execution of the compiled function from instruction index
`i`: run the instruction's block, then follow its fall-through edge, its
static-jump edge, or the dynamic jump table (whose default block returns
`InvalidJump`).  Modelled from the spec for the case of running past the
last instruction: the analyser guarantees the instruction stream ends in a
terminator, falling off the end stops (the repository's `no_stop` test). -/
def exec_from (env : ExecEnv) (cbs : Cbs) (prog : Program) :
    Nat → Nat → S → ExecResult
  | 0, _, s => .outOfFuel s
  | fuel + 1, i, s =>
    match prog.insts.get? i with
    | none => .done .Stop s
    | some inst =>
      match translate_inst env cbs prog inst s with
      | .fail (.ret r) s1 => .done r s1
      | .fail .oob s1 => .oobAccess s1
      | .fail .unimplemented s1 => .unimpl s1
      | .ok .fallthrough s1 => exec_from env cbs prog fuel (i + 1) s1
      | .ok (.jump (.direct j)) s1 => exec_from env cbs prog fuel j s1
      | .ok (.jump (.table t)) s1 =>
        match resolve_dynamic_jump prog t with
        | some j => exec_from env cbs prog fuel j s1
        | none => .done .InvalidJump s1

/-- The status byte of a finished execution. -/
def ExecResult.code : ExecResult → Option InstructionResult
  | .done r _ => some r
  | _ => none

/-- The machine state when execution stopped. -/
def ExecResult.finalState : ExecResult → S
  | .done _ s => s
  | .oobAccess s => s
  | .unimpl s => s
  | .outOfFuel s => s

/-- Whether execution performed an out-of-bounds stack access. -/
def ExecResult.isOob : ExecResult → Bool
  | .oobAccess _ => true
  | _ => false

/-- A callback oracle that always continues and writes nothing; the programs
below never reach a callback. -/
def cbs0 : Cbs := fun _ _ => (.Continue, [])

/-- A default execution context: empty calldata, not a static call, gas
accounting enabled. -/
def env0 : ExecEnv := { calldata := [], is_static := false, disable_gas := false }

/-- A gas record with limit 100000, as in the repository's test runner. -/
def gas0 : Gas := { limit := 100000, remaining := 100000, remaining_nomem := 100000 }

/-- An initial machine state: zeroed stack area, empty stack, gas 100000. -/
def s0 : S := { stack := fun _ => 0, len := 0, gas := gas0, trace := [] }

/-- An initial machine state whose stack holds one word (the value 0),
as a caller passing the stack through the arguments can provide. -/
def s0len1 : S := { s0 with len := 1 }

/-- Modelled from the spec: the pass-1 decode of the bytecode `[ADD]`.  ADD
carries static gas 3 (the scenario list of the spec and the repository's
`underflow1` test). -/
def progAdd : Program :=
  { raw := [0x01], insts := [{ opcode := 0x01, pc := 0, static_gas := some 3 }] }

/-- Modelled from the spec: the decode of the bytecode `[JUMPI]`.  The jump
has no preceding push, so it is a dynamic jump (neither `STATIC_JUMP` nor
`INVALID_JUMP` is set); JUMPI carries static gas 10. -/
def progJumpi : Program :=
  { raw := [0x57], insts := [{ opcode := 0x57, pc := 0, static_gas := some 10 }] }

/-- Modelled from the spec: the decode of the bytecode `[PUSH0, SWAP1]`
under a spec with PUSH0 enabled; PUSH0 carries static gas 2 and SWAP1
static gas 3. -/
def progSwap : Program :=
  { raw := [0x5f, 0x90],
    insts := [{ opcode := 0x5f, pc := 0, static_gas := some 2 },
              { opcode := 0x90, pc := 1, static_gas := some 3 }] }

/-- Modelled from the spec: the decode of the 14-byte bytecode
`[PUSH1 6, JUMP, JUMPDEST, STOP, JUMPDEST, JUMPDEST, PUSH5 0x0100000003,
JUMP]`.  Pass 2 resolves the first JUMP (pc 2) statically to the JUMPDEST at
pc 6 (instruction index 5) and marks the PUSH1 `SKIP_LOGIC`; the final JUMP
(pc 13) follows a PUSH5 whose immediate does not fit 32 bits, so it stays a
dynamic jump.  JUMPDESTs sit at pcs 3, 5 and 6. -/
def progAlias : Program :=
  { raw := [0x60, 0x06, 0x56, 0x5b, 0x00, 0x5b, 0x5b, 0x64,
            0x01, 0x00, 0x00, 0x00, 0x03, 0x56],
    insts :=
      [{ opcode := 0x60, pc := 0, flags := { skip_logic := true }, data := 1,
         static_gas := some 3 },
       { opcode := 0x56, pc := 2, flags := { static_jump := true }, data := 5,
         static_gas := some 8 },
       { opcode := 0x5b, pc := 3, static_gas := some 1 },
       { opcode := 0x00, pc := 4, static_gas := some 0 },
       { opcode := 0x5b, pc := 5, static_gas := some 1 },
       { opcode := 0x5b, pc := 6, static_gas := some 1 },
       { opcode := 0x64, pc := 7, data := 8, static_gas := some 3 },
       { opcode := 0x56, pc := 13, static_gas := some 8 }] }

/-- Modelled from the spec: the opcode table flags PUSH0 `DISABLED` before
SHANGHAI; this is the decoded single PUSH0 instruction under the MERGE spec
(the repository's `push0_merge` test). -/
def instPush0Merge : InstData :=
  { opcode := 0x5f, pc := 0, flags := { disabled := true }, static_gas := some 0 }

/-- A decoded instruction with an unknown opcode byte (0x21). -/
def instUnknown : InstData :=
  { opcode := 0x21, pc := 0, flags := { unknown := true } }

/-- Modelled from the spec: the decode of the truncated bytecode
`[PUSH2, 0xab]`, whose 2-byte immediate extends past the end of the code
(offset 1, only one byte left). -/
def progPushTrunc : Program :=
  { raw := [0x61, 0xab], insts := [{ opcode := 0x61, pc := 0, data := 1,
                                     static_gas := some 3 }] }

/-- The opcodes whose lowering begins with the static-call guard
(`fail_if_staticcall`): SSTORE, TSTORE, LOG0..LOG4, CREATE, CREATE2 and
SELFDESTRUCT. -/
def state_change_ops : List Nat :=
  [0x55, 0x5d, 0xa0, 0xa1, 0xa2, 0xa3, 0xa4, 0xf0, 0xf5, 0xff]

/-- A decoded SDIV instruction (static gas 5). -/
def instSdiv : InstData := { opcode := 0x05, pc := 0, static_gas := some 5 }

/-- A machine state whose two stack words are the divisor `-1` (all ones, at
index 0) and the dividend `I256_MIN` (at index 1, the top). -/
def sSdiv : S :=
  { stack := fun j => if j = 1 then I256_MIN else wordMod - 1, len := 2,
    gas := gas0, trace := [] }

/-- The gas record after charging 5 gas from `gas0`. -/
def gas995 : Gas :=
  { limit := 100000, remaining := 99995, remaining_nomem := 99995 }

/-- The gas record after charging 3 gas from `gas0`. -/
def gas997 : Gas :=
  { limit := 100000, remaining := 99997, remaining_nomem := 99997 }

/-- A decoded SSTORE instruction (its gas is dynamic, charged by the
callback). -/
def instSstoreS : InstData := { opcode := 0x55, pc := 0 }

/-- An execution context inside a static call. -/
def envStatic : ExecEnv :=
  { calldata := [], is_static := true, disable_gas := false }

/-- A decoded CALLDATALOAD instruction (static gas 3). -/
def instCdl : InstData := { opcode := 0x35, pc := 0, static_gas := some 3 }

/-- An execution context with two bytes of calldata. -/
def envCd : ExecEnv :=
  { calldata := [0xaa, 0xbb], is_static := false, disable_gas := false }

/-- A machine state with one stack word holding the value 1. -/
def sOne : S := { stack := fun _ => 1, len := 1, gas := gas0, trace := [] }

/-- The decoded truncated PUSH2 instruction of `progPushTrunc`. -/
def instPush2 : InstData :=
  { opcode := 0x61, pc := 0, data := 1, static_gas := some 3 }

/-- The decoded ADD instruction of `progAdd`. -/
def instAdd : InstData := { opcode := 0x01, pc := 0, static_gas := some 3 }

/-- The state `s0` after ADD's static-gas charge of 3. -/
def sAdd3 : S := { s0 with gas := gas997 }

/-! ## Lemmas about the fragment monad and the helpers -/

@[simp]
theorem bind_app {α β : Type} (x : M α) (f : α → M β) (s : S) :
    (x >>= f) s =
      match x s with
      | .ok a s1 => f a s1
      | .fail e s1 => .fail e s1 := rfl

@[simp]
theorem pure_app {α : Type} (a : α) (s : S) : (pure a : M α) s = .ok a s := rfl

@[simp]
theorem ite_app {α : Type} (c : Prop) [Decidable c] (m1 m2 : M α) (s : S) :
    (if c then m1 else m2) s = if c then m1 s else m2 s := by
  split <;> rfl

@[simp]
theorem throwF_app {α : Type} (f : Fail) (s : S) :
    (throwF f : M α) s = .fail f s := rfl

@[simp]
theorem load_len_app (s : S) : load_len s = .ok s.len s := rfl

@[simp]
theorem store_len_app (n : Nat) (s : S) :
    store_len n s = .ok () { s with len := n } := rfl

@[simp]
theorem load_gas_remaining_app (s : S) :
    load_gas_remaining s = .ok s.gas.remaining s := rfl

@[simp]
theorem trace_callback_app (cb : CallbackId) (s : S) :
    trace_callback cb s = .ok () { s with trace := s.trace ++ [cb] } := rfl

theorem stack_read_app (i : Int) (s : S) (h0 : 0 ≤ i) (h1 : i < 1024) :
    stack_read i s = .ok (s.stack i.toNat) s := by
  rw [stack_read, if_pos ⟨h0, h1⟩]

theorem stack_write_app (i : Int) (v : Nat) (s : S) (h0 : 0 ≤ i) (h1 : i < 1024) :
    stack_write i v s = .ok () { s with stack := updFn s.stack i.toNat v } := by
  rw [stack_write, if_pos ⟨h0, h1⟩]

theorem charge_static_app_ok (dis : Bool) (g : Option Nat) (s : S) (g2 : Gas)
    (h : static_charge dis g s.gas = .ok g2) :
    charge_static dis g s = .ok () { s with gas := g2 } := by
  rw [charge_static, h]

theorem popn2_app (s : S) (h2 : 2 ≤ s.len) (hcap : s.len ≤ 1024) :
    popn2 s = .ok (s.stack (s.len - 1), s.stack (s.len - 2))
      { s with len := s.len - 2 } := by
  have hr1 := stack_read_app ((s.len : Int) - 1) s (by omega) (by omega)
  have hr2 := stack_read_app ((s.len : Int) - 2) s (by omega) (by omega)
  have ht1 : ((s.len : Int) - 1).toNat = s.len - 1 := by omega
  have ht2 : ((s.len : Int) - 2).toNat = s.len - 2 := by omega
  rw [ht1] at hr1
  rw [ht2] at hr2
  have hno : ¬ (0 < 2 ∧ s.len < 2) := by omega
  simp only [popn2, load_len_at_least, build_failure, bind_app, load_len_app,
    decide_eq_true_eq, ite_app, hno, if_false, pure_app, hr1, hr2,
    store_len_app]

theorem pop1_app (s : S) (h1 : 1 ≤ s.len) (hcap : s.len ≤ 1024) :
    pop1 s = .ok (s.stack (s.len - 1)) { s with len := s.len - 1 } := by
  have hr1 := stack_read_app ((s.len : Int) - 1) s (by omega) (by omega)
  have ht1 : ((s.len : Int) - 1).toNat = s.len - 1 := by omega
  rw [ht1] at hr1
  have hno : ¬ (0 < 1 ∧ s.len < 1) := by omega
  simp only [pop1, load_len_at_least, build_failure, bind_app, load_len_app,
    decide_eq_true_eq, ite_app, hno, if_false, pure_app, hr1, store_len_app]

theorem push_unchecked_app (v : Nat) (s : S) (hcap : s.len < 1024) :
    push_unchecked v s =
      .ok () { s with stack := updFn s.stack s.len v, len := s.len + 1 } := by
  have hw := stack_write_app ((s.len : Int)) v s (by omega) (by omega)
  have ht : ((s.len : Int)).toNat = s.len := by omega
  rw [ht] at hw
  simp only [push_unchecked, bind_app, load_len_app, hw, store_len_app]

theorem push_app (v : Nat) (s : S) (hcap : s.len < 1024) :
    push v s =
      .ok () { s with stack := updFn s.stack s.len v, len := s.len + 1 } := by
  have hw := stack_write_app ((s.len : Int)) v s (by omega) (by omega)
  have ht : ((s.len : Int)).toNat = s.len := by omega
  rw [ht] at hw
  have hno : ¬ (s.len > 1024 - 1) := by omega
  simp only [push, load_len_for_push, build_failure, bind_app, load_len_app,
    decide_eq_true_eq, ite_app, hno, if_false, pure_app, hw, store_len_app]

theorem binop_app (f : Nat → Nat → Nat) (s : S) (h2 : 2 ≤ s.len)
    (hcap : s.len ≤ 1024) :
    binop f s = .ok .fallthrough
      { s with stack := updFn s.stack (s.len - 2)
                 (f (s.stack (s.len - 1)) (s.stack (s.len - 2))),
               len := s.len - 1 } := by
  have hp := popn2_app s h2 hcap
  have hu := push_unchecked_app (f (s.stack (s.len - 1)) (s.stack (s.len - 2)))
    { s with len := s.len - 2 } (by simp; omega)
  simp only [binop, bind_app, hp, hu, pure_app]
  simp only [show s.len - 2 + 1 = s.len - 1 from by omega]

theorem translate_inst_normal (env : ExecEnv) (cbs : Cbs) (prog : Program)
    (inst : InstData) (s : S) (g2 : Gas) (hfl : inst.flags = {})
    (hg : static_charge env.disable_gas inst.static_gas s.gas = .ok g2) :
    translate_inst env cbs prog inst s
      = lower_op env cbs prog inst { s with gas := g2 } := by
  have hch := charge_static_app_ok env.disable_gas inst.static_gas s g2 hg
  simp only [translate_inst, hfl, bind_app, hch, ite_app]
  rfl

/-! ## Claim C2: the static-gas deduction -/

/-- C2: for a non-zero static gas `g` with gas accounting enabled, the
emitted code loads `remaining`, computes `usub_overflow(remaining, g)` and
returns `OutOfGas` on overflow (that is, exactly when `remaining < g`);
otherwise it stores the wrapping difference `remaining_nomem - g` with no
overflow check and stores `remaining - g` to `remaining`. -/
theorem c2_gas_cost (g : Nat) (gas : Gas) (hg : g < u64Mod)
    (hrem : gas.remaining < u64Mod) :
    (gas.remaining < g → gas_cost g gas = .error .OutOfGas)
    ∧ (g ≤ gas.remaining →
        gas_cost g gas =
          .ok { limit := gas.limit, remaining := gas.remaining - g,
                remaining_nomem :=
                  (gas.remaining_nomem + (u64Mod - g)) % u64Mod }) := by
  constructor
  · intro h
    simp [gas_cost, usub_overflow, h]
  · intro h
    have hlt : ¬ gas.remaining < g := by omega
    simp only [gas_cost, usub_overflow, decide_eq_true_eq, hlt, if_false,
      decide_eq_false hlt]
    have h1 : g % u64Mod = g := Nat.mod_eq_of_lt hg
    have h2 : (gas.remaining + u64Mod - g) % u64Mod = gas.remaining - g := by
      have h3 : gas.remaining + u64Mod - g = u64Mod + (gas.remaining - g) := by
        omega
      rw [h3, Nat.add_mod_left]
      exact Nat.mod_eq_of_lt (by omega)
    have h4 : gas.remaining_nomem + u64Mod - g
        = gas.remaining_nomem + (u64Mod - g) := by omega
    simp [h1, h2, h4]

/-- Witness for C2 at a concrete input, including a case where
`remaining_nomem < g` so that the unchecked `remaining_nomem` store wraps. -/
theorem c2_gas_cost_witness :
    (5 : Nat) < u64Mod ∧ (10 : Nat) < u64Mod ∧
    gas_cost 5 { limit := 100, remaining := 10, remaining_nomem := 3 } =
      .ok { limit := 100, remaining := 5,
            remaining_nomem := (3 + (u64Mod - 5)) % u64Mod } :=
  ⟨by decide, by decide,
    (c2_gas_cost 5 { limit := 100, remaining := 10, remaining_nomem := 3 }
      (by decide) (by decide)).2 (by decide)⟩

/-! ## Claim C6: DISABLED and UNKNOWN opcodes -/

/-- C6: a DISABLED instruction compiles to an immediate `NotActivated`
return and an UNKNOWN one to an immediate `OpcodeNotFound` return, in both
cases before any gas is charged and with the machine state (stack contents,
stack length, gas) untouched. -/
theorem c6_disabled_unknown (env : ExecEnv) (cbs : Cbs) (prog : Program)
    (inst : InstData) (s : S) :
    (inst.flags.disabled = true →
      translate_inst env cbs prog inst s = .fail (.ret .NotActivated) s)
    ∧ (inst.flags.disabled = false → inst.flags.unknown = true →
      translate_inst env cbs prog inst s = .fail (.ret .OpcodeNotFound) s) := by
  constructor
  · intro h
    simp [translate_inst, h]
  · intro h1 h2
    simp [translate_inst, h1, h2]

/-- Witness for C6: PUSH0 under the MERGE spec (flagged DISABLED by the
opcode table) and the unknown byte 0x21. -/
theorem c6_disabled_unknown_witness :
    instPush0Merge.flags.disabled = true ∧
    translate_inst env0 cbs0 progAdd instPush0Merge s0 =
      .fail (.ret .NotActivated) s0 ∧
    instUnknown.flags.disabled = false ∧
    instUnknown.flags.unknown = true ∧
    translate_inst env0 cbs0 progAdd instUnknown s0 =
      .fail (.ret .OpcodeNotFound) s0 :=
  ⟨rfl, (c6_disabled_unknown env0 cbs0 progAdd instPush0Merge s0).1 rfl,
   rfl, rfl,
   (c6_disabled_unknown env0 cbs0 progAdd instUnknown s0).2 rfl rfl⟩

/-! ## Claim C8: the `[ADD]` scenario -/

/-- C8: executing the compiled function for the bytecode `[ADD]` on an empty
stack with gas limit 100000 returns `StackUnderflow` with exactly 3 gas
spent: ADD's static gas of 3 is charged before the stack bound check. -/
theorem c8_add_underflow :
    (exec_from env0 cbs0 progAdd 5 0 s0).code = some .StackUnderflow ∧
    (exec_from env0 cbs0 progAdd 5 0 s0).finalState.gas.spent = 3 ∧
    s0.gas.limit = 100000 ∧ s0.len = 0 :=
  ⟨by decide, by decide, by decide, by decide⟩

/-! ## Claim C3: the SWAP bound check is one short -/

/-- C3 (code bug): the claim says every opcode that reads `n` stack values
first checks `len >= n` and returns `StackUnderflow` otherwise.  `swap(n)`
(SWAPn reads `n + 1` values) only checks `len >= n`: on the bytecode
`[PUSH0, SWAP1]`, the check `1 >= 1` passes and the emitted code accesses
the stack slot at index -1, an out-of-bounds access, instead of returning
`StackUnderflow` as the reference interpreter does. -/
theorem c3_swap_oob :
    (exec_from env0 cbs0 progSwap 5 0 s0).isOob = true ∧
    (exec_from env0 cbs0 progSwap 5 0 s0).code ≠ some .StackUnderflow :=
  ⟨by decide, by decide⟩

/-! ## Claim C1: the dynamic jump table -/

/-- C1 counterexample: the 256-bit dynamic jump target `2^32 + 3` (pushed by
the PUSH5 of `progAlias`, and at least `2^32`, so by the claim the compiled
function must return `InvalidJump`) is truncated to 32 bits, aliases the
JUMPDEST at PC 3, and execution finishes with `Stop`. -/
theorem c1_counterexample :
    (exec_from env0 cbs0 progAlias 20 0 s0).code = some .Stop ∧
    (exec_from env0 cbs0 progAlias 20 0 s0).code ≠ some .InvalidJump ∧
    2 ^ 32 ≤ push_value progAlias.raw
      { opcode := 0x64, pc := 7, data := 8, static_gas := some 3 } :=
  ⟨by decide, by decide, by decide⟩

theorem switch_lookup_jump_cases (ds : List InstData) (i v : Nat) :
    switch_lookup (jump_cases i ds) v
      = (first_jumpdest_at ds v).map (· + i) := by
  induction ds generalizing i with
  | nil => rfl
  | cons d ds ih =>
    by_cases hop : d.opcode = 0x5b
    · by_cases hpc : d.pc = v
      · simp [jump_cases, switch_lookup, first_jumpdest_at, hop, hpc]
      · simp only [jump_cases, hop, if_true, List.singleton_append,
          switch_lookup, hpc, if_false, first_jumpdest_at, ih]
        simp only [hpc, and_false, if_false]
        cases first_jumpdest_at ds v
        · simp
        · simp
          omega
    · simp only [jump_cases, hop, if_false, List.nil_append, ih,
        first_jumpdest_at]
      simp only [hop, false_and, if_false]
      cases first_jumpdest_at ds v
      · simp
      · simp
        omega

/-- C1 amended: the jump-table block truncates the 256-bit target to its low
32 bits and switches on that value: it branches to the first JUMPDEST whose
PC equals `target mod 2^32` and reaches the default block returning
`InvalidJump` exactly when no JUMPDEST has that PC.  In particular a target
of `2^32` or more behaves exactly like its low 32 bits instead of always
being an invalid jump. -/
theorem c1_dynamic_jump_amended (prog : Program) (t : Nat) :
    resolve_dynamic_jump prog t = first_jumpdest_at prog.insts (t % u32Mod) ∧
    resolve_dynamic_jump prog t = resolve_dynamic_jump prog (t % u32Mod) := by
  have h0 := switch_lookup_jump_cases prog.insts 0 (t % u32Mod)
  have hmm : t % u32Mod % u32Mod = t % u32Mod := Nat.mod_mod_of_dvd t dvd_rfl
  constructor
  · rw [resolve_dynamic_jump, h0]
    cases first_jumpdest_at prog.insts (t % u32Mod) <;> simp
  · rw [resolve_dynamic_jump, resolve_dynamic_jump, hmm]

/-! ## Failure analysis of the emitted stack-bound checks -/


theorem load_len_at_least_app (n : Nat) (s : S) :
    load_len_at_least n s =
      if 0 < n ∧ s.len < n then .fail (.ret .StackUnderflow) s
      else .ok s.len s := by
  by_cases hc : 0 < n ∧ s.len < n
  · simp only [load_len_at_least, bind_app, load_len_app, build_failure,
      ite_app, decide_eq_true_eq, if_pos hc, throwF_app]
  · simp only [load_len_at_least, bind_app, load_len_app, build_failure,
      ite_app, decide_eq_true_eq, if_neg hc, pure_app]

theorem load_len_for_push_app (n : Nat) (s : S) :
    load_len_for_push n s =
      if s.len > 1024 - n then .fail (.ret .StackOverflow) s
      else .ok s.len s := by
  by_cases hc : s.len > 1024 - n
  · simp only [load_len_for_push, bind_app, load_len_app, build_failure,
      ite_app, decide_eq_true_eq, if_pos hc, throwF_app]
  · simp only [load_len_for_push, bind_app, load_len_app, build_failure,
      ite_app, decide_eq_true_eq, if_neg hc, pure_app]

theorem stack_read_cases (i : Int) (s : S) :
    stack_read i s = .ok (s.stack i.toNat) s ∨ stack_read i s = .fail .oob s := by
  rw [stack_read]
  split
  · exact Or.inl rfl
  · exact Or.inr rfl

theorem stack_write_cases (i : Int) (v : Nat) (s : S) :
    stack_write i v s = .ok () { s with stack := updFn s.stack i.toNat v }
    ∨ stack_write i v s = .fail .oob s := by
  rw [stack_write]
  split
  · exact Or.inl rfl
  · exact Or.inr rfl

theorem popn2_fail (s : S) (r : InstructionResult) (s2 : S)
    (h : popn2 s = .fail (.ret r) s2) : s2 = s := by
  by_cases hc : 0 < 2 ∧ s.len < 2
  · simp only [popn2, bind_app, load_len_at_least_app, if_pos hc] at h
    cases h
    rfl
  · rw [popn2] at h
    simp only [bind_app, load_len_at_least_app, if_neg hc] at h
    rcases stack_read_cases ((s.len : Int) - 1) s with h1 | h1
    · simp only [h1] at h
      rcases stack_read_cases ((s.len : Int) - 2) s with h2 | h2
      · simp only [h2] at h
        simp only [store_len_app, pure_app] at h
        exact absurd h (by simp)
      · simp only [h2] at h
        exact absurd h (by simp)
    · simp only [h1] at h
      exact absurd h (by simp)

theorem pop1_fail (s : S) (r : InstructionResult) (s2 : S)
    (h : pop1 s = .fail (.ret r) s2) : s2 = s := by
  by_cases hc : 0 < 1 ∧ s.len < 1
  · simp only [pop1, bind_app, load_len_at_least_app, if_pos hc] at h
    cases h
    rfl
  · rw [pop1] at h
    simp only [bind_app, load_len_at_least_app, if_neg hc] at h
    rcases stack_read_cases ((s.len : Int) - 1) s with h1 | h1
    · simp only [h1] at h
      simp only [store_len_app, pure_app] at h
      exact absurd h (by simp)
    · simp only [h1] at h
      exact absurd h (by simp)

theorem pop_sp_fail (n : Nat) (s : S) (r : InstructionResult) (s2 : S)
    (h : pop_sp n s = .fail (.ret r) s2) : s2 = s := by
  by_cases hc : 0 < n ∧ s.len < n
  · simp only [pop_sp, bind_app, load_len_at_least_app, if_pos hc] at h
    cases h
    rfl
  · simp only [pop_sp, bind_app, load_len_at_least_app, if_neg hc,
      store_len_app, pure_app] at h
    exact absurd h (by simp)

theorem pop_top_sp_fail (n : Nat) (s : S) (r : InstructionResult) (s2 : S)
    (h : pop_top_sp n s = .fail (.ret r) s2) : s2 = s := by
  by_cases hc : 0 < n ∧ s.len < n
  · simp only [pop_top_sp, bind_app, load_len_at_least_app, if_pos hc] at h
    cases h
    rfl
  · by_cases hn : n > 1
    · simp only [pop_top_sp, bind_app, load_len_at_least_app, if_neg hc,
        ite_app, if_pos hn, store_len_app, pure_app] at h
      exact absurd h (by simp)
    · simp only [pop_top_sp, bind_app, load_len_at_least_app, if_neg hc,
        ite_app, if_neg hn, pure_app] at h
      exact absurd h (by simp)

theorem push_fail (v : Nat) (s : S) (r : InstructionResult) (s2 : S)
    (h : push v s = .fail (.ret r) s2) : s2 = s := by
  by_cases hc : s.len > 1024 - 1
  · simp only [push, bind_app, load_len_for_push_app, if_pos hc] at h
    cases h
    rfl
  · rw [push] at h
    simp only [bind_app, load_len_for_push_app, if_neg hc] at h
    rcases stack_write_cases ((s.len : Int)) v s with h1 | h1
    · simp only [h1] at h
      simp only [store_len_app, pure_app] at h
      exact absurd h (by simp)
    · simp only [h1] at h
      exact absurd h (by simp)

theorem push_unchecked_fail (v : Nat) (s : S) (r : InstructionResult) (s2 : S)
    (h : push_unchecked v s = .fail (.ret r) s2) : False := by
  rw [push_unchecked] at h
  simp only [bind_app, load_len_app] at h
  rcases stack_write_cases ((s.len : Int)) v s with h1 | h1
  · simp only [h1] at h
    simp only [store_len_app] at h
    exact absurd h (by simp)
  · simp only [h1] at h
    exact absurd h (by simp)

theorem binop_fail (f : Nat → Nat → Nat) (s : S) (r : InstructionResult)
    (s2 : S) (h : binop f s = .fail (.ret r) s2) : s2 = s := by
  rw [binop] at h
  simp only [bind_app] at h
  cases hp : popn2 s with
  | ok ab s3 =>
    simp only [hp] at h
    cases hu : push_unchecked (f ab.1 ab.2) s3 with
    | ok u s4 =>
      simp only [hu, pure_app] at h
      exact absurd h (by simp)
    | fail e s4 =>
      simp only [hu] at h
      cases h
      exact absurd hu (fun hh => push_unchecked_fail _ _ _ _ hh)
  | fail e s3 =>
    simp only [hp] at h
    cases h
    exact popn2_fail s r s2 hp

theorem unop_fail (f : Nat → Nat) (s : S) (r : InstructionResult)
    (s2 : S) (h : unop f s = .fail (.ret r) s2) : s2 = s := by
  rw [unop] at h
  simp only [bind_app] at h
  cases hp : pop1 s with
  | ok a s3 =>
    simp only [hp] at h
    cases hu : push_unchecked (f a) s3 with
    | ok u s4 =>
      simp only [hu, pure_app] at h
      exact absurd h (by simp)
    | fail e s4 =>
      simp only [hu] at h
      cases h
      exact absurd hu (fun hh => push_unchecked_fail _ _ _ _ hh)
  | fail e s3 =>
    simp only [hp] at h
    cases h
    exact pop1_fail s r s2 hp



theorem read_args_fail (b : Int) (k : Nat) (s : S) (e : Fail) (s2 : S)
    (h : read_args b k s = .fail e s2) : e = .oob := by
  induction k generalizing b s with
  | zero =>
    rw [read_args] at h
    exact absurd h (by simp)
  | succ k ih =>
    rw [read_args] at h
    simp only [bind_app] at h
    rcases stack_read_cases (b - 1) s with h1 | h1
    · simp only [h1] at h
      cases h2 : read_args (b - 1) k s with
      | ok a s3 =>
        simp only [h2, pure_app] at h
        exact absurd h (by simp)
      | fail e3 s3 =>
        simp only [h2] at h
        cases h
        exact ih _ _ h2
    · simp only [h1] at h
      cases h
      rfl

theorem write_outs_fail (b : Int) (vs : List Nat) (s : S) (e : Fail) (s2 : S)
    (h : write_outs b vs s = .fail e s2) : e = .oob := by
  induction vs generalizing b s with
  | nil =>
    rw [write_outs] at h
    exact absurd h (by simp)
  | cons v vs ih =>
    rw [write_outs] at h
    simp only [bind_app] at h
    rcases stack_write_cases (b - 1) v s with h1 | h1
    · simp only [h1] at h
      exact ih _ _ h
    · simp only [h1] at h
      cases h
      rfl

theorem callback_call_fail (cbs : Cbs) (cb : CallbackId) (n base : Nat)
    (s : S) (e : Fail) (s2 : S)
    (h : callback_call cbs cb n base s = .fail e s2) : e = .oob := by
  rw [callback_call] at h
  simp only [bind_app, trace_callback_app] at h
  cases h1 : read_args (base : Int) n { s with trace := s.trace ++ [cb] } with
  | ok args s3 =>
    simp only [h1] at h
    cases h2 : write_outs (base : Int) (cbs cb args).2 s3 with
    | ok u s4 =>
      simp only [h2, pure_app] at h
      exact absurd h (by simp)
    | fail e4 s4 =>
      simp only [h2] at h
      cases h
      exact write_outs_fail _ _ _ _ _ h2
  | fail e3 s3 =>
    simp only [h1] at h
    cases h
    exact read_args_fail _ _ _ _ _ h1

theorem callback_call_ok (cbs : Cbs) (cb : CallbackId) (n base : Nat)
    (s : S) (r : InstructionResult) (s2 : S)
    (h : callback_call cbs cb n base s = .ok r s2) :
    ∃ args, r = (cbs cb args).1 := by
  rw [callback_call] at h
  simp only [bind_app, trace_callback_app] at h
  cases h1 : read_args (base : Int) n { s with trace := s.trace ++ [cb] } with
  | ok args s3 =>
    simp only [h1] at h
    cases h2 : write_outs (base : Int) (cbs cb args).2 s3 with
    | ok u s4 =>
      simp only [h2, pure_app] at h
      cases h
      exact ⟨args, rfl⟩
    | fail e4 s4 =>
      simp only [h2] at h
      exact absurd h (by simp)
  | fail e3 s3 =>
    simp only [h1] at h
    exact absurd h (by simp)

theorem callback_ir_fail (cbs : Cbs) (cb : CallbackId) (n base : Nat)
    (s : S) (r : InstructionResult) (s2 : S)
    (h : callback_ir cbs cb n base s = .fail (.ret r) s2) :
    ∃ args, r = (cbs cb args).1 := by
  rw [callback_ir] at h
  simp only [bind_app] at h
  cases h1 : callback_call cbs cb n base s with
  | ok r1 s3 =>
    simp only [h1, ite_app] at h
    split at h
    · simp only [pure_app] at h
      exact absurd h (by simp)
    · simp only [throwF_app] at h
      cases h
      exact callback_call_ok cbs cb n base s _ _ h1
  | fail e s3 =>
    simp only [h1] at h
    cases h
    exact absurd (callback_call_fail cbs cb n base s _ _ h1) (by simp)

theorem dup_fail (n : Nat) (s : S) (r : InstructionResult) (s2 : S)
    (h : dup n s = .fail (.ret r) s2) : s2 = s := by
  rw [dup] at h
  simp only [bind_app, load_len_app, build_failure, ite_app,
    decide_eq_true_eq] at h
  by_cases hc : s.len < n
  · rw [if_pos hc] at h
    simp only [throwF_app] at h
    cases h
    rfl
  · rw [if_neg hc] at h
    simp only [pure_app] at h
    rcases stack_read_cases ((s.len : Int) - (n : Int)) s with h1 | h1
    · simp only [h1] at h
      exact push_fail _ _ _ _ h
    · simp only [h1] at h
      exact absurd h (by simp)

theorem stack_write_fail (i : Int) (v : Nat) (s : S) (e : Fail) (s2 : S)
    (h : stack_write i v s = .fail e s2) : s2 = s ∧ e = .oob := by
  rw [stack_write] at h
  split at h
  · exact absurd h (by simp)
  · cases h
    exact ⟨rfl, rfl⟩

theorem swap_fail (n : Nat) (s : S) (r : InstructionResult) (s2 : S)
    (h : swap n s = .fail (.ret r) s2) : s2 = s := by
  rw [swap] at h
  simp only [bind_app, load_len_app, build_failure, ite_app,
    decide_eq_true_eq] at h
  by_cases hc : s.len < n
  · rw [if_pos hc] at h
    simp only [throwF_app] at h
    cases h
    rfl
  · rw [if_neg hc] at h
    simp only [pure_app] at h
    rcases stack_read_cases ((s.len : Int) - ((n : Int) + 1)) s with h1 | h1
    · simp only [h1] at h
      rcases stack_read_cases ((s.len : Int) - 1) s with h2 | h2
      · simp only [h2] at h
        rcases stack_write_cases ((s.len : Int) - 1)
            (s.stack ((s.len : Int) - ((n : Int) + 1)).toNat) s with h3 | h3
        · simp only [h3] at h
          have h4 := stack_write_fail _ _ _ _ _ h
          exact absurd h4.2 (by simp)
        · simp only [h3] at h
          exact absurd h (by simp)
      · simp only [h2] at h
        exact absurd h (by simp)
    · simp only [h1] at h
      exact absurd h (by simp)



theorem jump_sem_fail (inst : InstData) (o : Nat) (s : S)
    (r : InstructionResult) (s2 : S)
    (hnd : ¬(o = 0x57 ∧ inst.flags.static_jump = false
      ∧ inst.flags.invalid_jump = false))
    (h : jump_sem inst o s = .fail (.ret r) s2) : s2 = s := by
  rw [jump_sem] at h
  by_cases hij : inst.flags.invalid_jump
  · rw [if_pos hij] at h
    simp only [throwF_app] at h
    cases h
    rfl
  · rw [if_neg hij] at h
    by_cases hsj : inst.flags.static_jump
    · by_cases ho : o = 0x57
      · cases hp : pop1 s with
        | ok c s3 =>
          simp only [bind_app, ite_app, hsj, if_true, pure_app, ho, hp] at h
          split at h <;> exact absurd h (by simp)
        | fail e s3 =>
          simp only [bind_app, ite_app, hsj, if_true, pure_app, ho, hp] at h
          cases h
          exact pop1_fail _ _ _ hp
      · simp only [bind_app, ite_app, hsj, if_true, pure_app, if_neg ho] at h
        exact absurd h (by simp)
    · have ho : ¬ o = 0x57 := by
        intro hh
        exact hnd ⟨hh, by simpa using hsj, by simpa using hij⟩
      cases hp : pop1 s with
      | ok t s3 =>
        simp only [bind_app, ite_app, hsj, if_false, hp, pure_app,
          if_neg ho] at h
        exact absurd h (by simp)
      | fail e s3 =>
        simp only [bind_app, ite_app, hsj, if_false, hp] at h
        cases h
        exact pop1_fail _ _ _ hp

theorem return_common_fail (cbs : Cbs) (s : S) (r : InstructionResult)
    (s2 : S) (h : return_common cbs s = .fail (.ret r) s2) :
    s2 = s ∨ ∃ args, r = (cbs .DoReturn args).1 := by
  rw [return_common] at h
  simp only [bind_app] at h
  cases hp : pop_sp 2 s with
  | ok sp s3 =>
    simp only [hp] at h
    exact Or.inr (callback_ir_fail _ _ _ _ _ _ _ h)
  | fail e s3 =>
    simp only [hp] at h
    cases h
    exact Or.inl (pop_sp_fail _ _ _ _ hp)

theorem create_common_fail (env : ExecEnv) (cbs : Cbs) (b : Bool) (s : S)
    (r : InstructionResult) (s2 : S)
    (h : create_common env cbs b s = .fail (.ret r) s2) :
    s2 = s ∨ (∃ args, r = (cbs .Create args).1) ∨ r = .CallOrCreate := by
  rw [create_common] at h
  simp only [bind_app, fail_if_staticcall, build_failure, ite_app] at h
  by_cases hst : env.is_static = true
  · simp only [hst, if_true, throwF_app] at h
    cases h
    exact Or.inl rfl
  · simp only [if_neg hst, pure_app] at h
    cases hp : pop_sp (3 + (if b then 1 else 0)) s with
    | ok sp s3 =>
      simp only [hp] at h
      cases hc : callback_ir cbs .Create (3 + (if b then 1 else 0)) sp s3 with
      | ok u s4 =>
        simp only [hc, throwF_app] at h
        cases h
        exact Or.inr (Or.inr rfl)
      | fail e s4 =>
        simp only [hc] at h
        cases h
        exact Or.inr (Or.inl (callback_ir_fail _ _ _ _ _ _ _ hc))
    | fail e s3 =>
      simp only [hp] at h
      cases h
      exact Or.inl (pop_sp_fail _ _ _ _ hp)



theorem cb_top_plain_fail (cbs : Cbs) (cb : CallbackId) (n : Nat) (s : S)
    (r : InstructionResult) (s2 : S)
    (h : (do
        let sp ← pop_top_sp n
        let _ ← callback_call cbs cb n sp
        pure StepOut.fallthrough : M StepOut) s = .fail (.ret r) s2) :
    s2 = s := by
  simp only [bind_app] at h
  cases hp : pop_top_sp n s with
  | ok sp s3 =>
    simp only [hp] at h
    cases hc : callback_call cbs cb n sp s3 with
    | ok r1 s4 =>
      simp only [hc, pure_app] at h
      exact absurd h (by simp)
    | fail e s4 =>
      simp only [hc] at h
      cases h
      exact absurd (callback_call_fail _ _ _ _ _ _ _ hc) (by simp)
  | fail e s3 =>
    simp only [hp] at h
    cases h
    exact pop_top_sp_fail _ _ _ _ hp

theorem cb_top_ir_fail (cbs : Cbs) (cb : CallbackId) (n : Nat) (s : S)
    (r : InstructionResult) (s2 : S)
    (h : (do
        let sp ← pop_top_sp n
        callback_ir cbs cb n sp
        pure StepOut.fallthrough : M StepOut) s = .fail (.ret r) s2) :
    s2 = s ∨ ∃ args, r = (cbs cb args).1 := by
  simp only [bind_app] at h
  cases hp : pop_top_sp n s with
  | ok sp s3 =>
    simp only [hp] at h
    cases hc : callback_ir cbs cb n sp s3 with
    | ok u s4 =>
      simp only [hc, pure_app] at h
      exact absurd h (by simp)
    | fail e s4 =>
      simp only [hc] at h
      cases h
      exact Or.inr (callback_ir_fail _ _ _ _ _ _ _ hc)
  | fail e s3 =>
    simp only [hp] at h
    cases h
    exact Or.inl (pop_top_sp_fail _ _ _ _ hp)

theorem cb_pop_ir_fail (cbs : Cbs) (cb : CallbackId) (n : Nat) (s : S)
    (r : InstructionResult) (s2 : S)
    (h : (do
        let sp ← pop_sp n
        callback_ir cbs cb n sp
        pure StepOut.fallthrough : M StepOut) s = .fail (.ret r) s2) :
    s2 = s ∨ ∃ args, r = (cbs cb args).1 := by
  simp only [bind_app] at h
  cases hp : pop_sp n s with
  | ok sp s3 =>
    simp only [hp] at h
    cases hc : callback_ir cbs cb n sp s3 with
    | ok u s4 =>
      simp only [hc, pure_app] at h
      exact absurd h (by simp)
    | fail e s4 =>
      simp only [hc] at h
      cases h
      exact Or.inr (callback_ir_fail _ _ _ _ _ _ _ hc)
  | fail e s3 =>
    simp only [hp] at h
    cases h
    exact Or.inl (pop_sp_fail _ _ _ _ hp)

theorem guard_pop_ir_fail (flag : Bool) (cbs : Cbs) (cb : CallbackId)
    (n : Nat) (s : S) (r : InstructionResult) (s2 : S)
    (h : (do
        fail_if_staticcall flag .StateChangeDuringStaticCall
        let sp ← pop_sp n
        callback_ir cbs cb n sp
        pure StepOut.fallthrough : M StepOut) s = .fail (.ret r) s2) :
    s2 = s ∨ ∃ args, r = (cbs cb args).1 := by
  by_cases hf : flag = true
  · simp only [bind_app, fail_if_staticcall, build_failure, hf, if_true,
      throwF_app] at h
    cases h
    exact Or.inl rfl
  · simp only [bind_app, fail_if_staticcall, build_failure, hf,
      Bool.false_eq_true, if_false, pure_app] at h
    exact cb_pop_ir_fail cbs cb n s r s2 (by simpa using h)

theorem guard_pop_plain_fail (flag : Bool) (cbs : Cbs) (cb : CallbackId)
    (n : Nat) (s : S) (r : InstructionResult) (s2 : S)
    (h : (do
        fail_if_staticcall flag .StateChangeDuringStaticCall
        let sp ← pop_sp n
        let _ ← callback_call cbs cb n sp
        pure StepOut.fallthrough : M StepOut) s = .fail (.ret r) s2) :
    s2 = s := by
  by_cases hf : flag = true
  · simp only [bind_app, fail_if_staticcall, build_failure, hf, if_true,
      throwF_app] at h
    cases h
    rfl
  · simp only [bind_app, fail_if_staticcall, build_failure, hf,
      Bool.false_eq_true, if_false, pure_app] at h
    cases hp : pop_sp n s with
    | ok sp s3 =>
      simp only [hp] at h
      cases hc : callback_call cbs cb n sp s3 with
      | ok r1 s4 =>
        simp only [hc, pure_app] at h
        exact absurd h (by simp)
      | fail e s4 =>
        simp only [hc] at h
        cases h
        exact absurd (callback_call_fail _ _ _ _ _ _ _ hc) (by simp)
    | fail e s3 =>
      simp only [hp] at h
      cases h
      exact pop_sp_fail _ _ _ _ hp

theorem pop1_pushunchecked_fail (g : Nat → Nat) (s : S)
    (r : InstructionResult) (s2 : S)
    (h : (do
        let a ← pop1
        push_unchecked (g a)
        pure StepOut.fallthrough : M StepOut) s = .fail (.ret r) s2) :
    s2 = s := by
  simp only [bind_app] at h
  cases hp : pop1 s with
  | ok a s3 =>
    simp only [hp] at h
    cases hu : push_unchecked (g a) s3 with
    | ok u s4 =>
      simp only [hu, pure_app] at h
      exact absurd h (by simp)
    | fail e s4 =>
      simp only [hu] at h
      cases h
      exact absurd hu (fun hh => push_unchecked_fail _ _ _ _ hh)
  | fail e s3 =>
    simp only [hp] at h
    cases h
    exact pop1_fail _ _ _ hp

theorem pop_only_fail (s : S) (r : InstructionResult) (s2 : S)
    (h : (do
        let len ← load_len_at_least 1
        store_len (len - 1)
        pure StepOut.fallthrough : M StepOut) s = .fail (.ret r) s2) :
    s2 = s := by
  by_cases hc : 0 < 1 ∧ s.len < 1
  · simp only [bind_app, load_len_at_least_app, if_pos hc] at h
    cases h
    rfl
  · simp only [bind_app, load_len_at_least_app, if_neg hc, store_len_app,
      pure_app] at h
    exact absurd h (by simp)

theorem push_pure_fail (v : Nat) (s : S) (r : InstructionResult) (s2 : S)
    (h : (do
        push v
        pure StepOut.fallthrough : M StepOut) s = .fail (.ret r) s2) :
    s2 = s := by
  simp only [bind_app] at h
  cases hp : push v s with
  | ok u s3 =>
    simp only [hp, pure_app] at h
    exact absurd h (by simp)
  | fail e s3 =>
    simp only [hp] at h
    cases h
    exact push_fail _ _ _ _ hp

theorem gas_push_fail (s : S) (r : InstructionResult) (s2 : S)
    (h : (do
        let rem ← load_gas_remaining
        push rem
        pure StepOut.fallthrough : M StepOut) s = .fail (.ret r) s2) :
    s2 = s := by
  simp only [bind_app, load_gas_remaining_app] at h
  cases hp : push s.gas.remaining s with
  | ok u s3 =>
    simp only [hp, pure_app] at h
    exact absurd h (by simp)
  | fail e s3 =>
    simp only [hp] at h
    cases h
    exact push_fail _ _ _ _ hp

theorem return_then_fail (cbs : Cbs) (x : InstructionResult) (s : S)
    (r : InstructionResult) (s2 : S)
    (h : (do
        return_common cbs
        throwF (.ret x) : M StepOut) s = .fail (.ret r) s2) :
    s2 = s ∨ (∃ args, r = (cbs .DoReturn args).1) ∨ r = x := by
  simp only [bind_app] at h
  cases hc : return_common cbs s with
  | ok u s3 =>
    simp only [hc, throwF_app] at h
    cases h
    exact Or.inr (Or.inr rfl)
  | fail e s3 =>
    simp only [hc] at h
    cases h
    rcases return_common_fail cbs s _ _ hc with he | hex
    · exact Or.inl he
    · exact Or.inr (Or.inl hex)

theorem selfdestruct_shape_fail (flag : Bool) (cbs : Cbs) (s : S)
    (r : InstructionResult) (s2 : S)
    (h : (do
        fail_if_staticcall flag .StateChangeDuringStaticCall
        let sp ← pop_sp 1
        callback_ir cbs .SelfDestruct 1 sp
        throwF (.ret .SelfDestructed) : M StepOut) s = .fail (.ret r) s2) :
    s2 = s ∨ (∃ args, r = (cbs .SelfDestruct args).1)
      ∨ r = .SelfDestructed := by
  by_cases hf : flag = true
  · simp only [bind_app, fail_if_staticcall, build_failure, hf, if_true,
      throwF_app] at h
    cases h
    exact Or.inl rfl
  · simp only [bind_app, fail_if_staticcall, build_failure, hf,
      Bool.false_eq_true, if_false, pure_app] at h
    cases hp : pop_sp 1 s with
    | ok sp s3 =>
      simp only [hp] at h
      cases hc : callback_ir cbs .SelfDestruct 1 sp s3 with
      | ok u s4 =>
        simp only [hc, throwF_app] at h
        cases h
        exact Or.inr (Or.inr rfl)
      | fail e s4 =>
        simp only [hc] at h
        cases h
        exact Or.inr (Or.inl (callback_ir_fail _ _ _ _ _ _ _ hc))
    | fail e s3 =>
      simp only [hp] at h
      cases h
      exact Or.inl (pop_sp_fail _ _ _ _ hp)

theorem no_stack_err (cbs : Cbs) (cb : CallbackId)
    (hcbs : ∀ cb2 args, (cbs cb2 args).1 ≠ .StackUnderflow
      ∧ (cbs cb2 args).1 ≠ .StackOverflow)
    (r : InstructionResult) (hr : r = .StackUnderflow ∨ r = .StackOverflow)
    (hex : ∃ args, r = (cbs cb args).1) : False := by
  obtain ⟨args, ha⟩ := hex
  rcases hr with h | h
  · exact (hcbs cb args).1 (by rw [← ha, h])
  · exact (hcbs cb args).2 (by rw [← ha, h])

theorem resolve_ir_disj (cbs : Cbs) (cb : CallbackId) (s s2 : S)
    (r : InstructionResult)
    (hcbs : ∀ cb2 args, (cbs cb2 args).1 ≠ .StackUnderflow
      ∧ (cbs cb2 args).1 ≠ .StackOverflow)
    (hr : r = .StackUnderflow ∨ r = .StackOverflow)
    (hd : s2 = s ∨ ∃ args, r = (cbs cb args).1) : s2 = s := by
  rcases hd with he | hex
  · exact he
  · exact absurd hex (fun hh => no_stack_err cbs cb hcbs r hr hh)

theorem resolve_ir_disj3 (cbs : Cbs) (cb : CallbackId) (s s2 : S)
    (r x : InstructionResult)
    (hcbs : ∀ cb2 args, (cbs cb2 args).1 ≠ .StackUnderflow
      ∧ (cbs cb2 args).1 ≠ .StackOverflow)
    (hr : r = .StackUnderflow ∨ r = .StackOverflow)
    (hx1 : x ≠ .StackUnderflow) (hx2 : x ≠ .StackOverflow)
    (hd : s2 = s ∨ (∃ args, r = (cbs cb args).1) ∨ r = x) : s2 = s := by
  rcases hd with he | hex | hx
  · exact he
  · exact absurd hex (fun hh => no_stack_err cbs cb hcbs r hr hh)
  · rcases hr with h | h
    · exact absurd (h ▸ hx).symm hx1
    · exact absurd (h ▸ hx).symm hx2



theorem dup_pure_fail (n : Nat) (s : S) (r : InstructionResult) (s2 : S)
    (h : (do
        dup n
        pure StepOut.fallthrough : M StepOut) s = .fail (.ret r) s2) :
    s2 = s := by
  simp only [bind_app] at h
  cases hd : dup n s with
  | ok u s3 =>
    simp only [hd, pure_app] at h
    exact absurd h (by simp)
  | fail e s3 =>
    simp only [hd] at h
    cases h
    exact dup_fail _ _ _ _ hd

theorem swap_pure_fail (n : Nat) (s : S) (r : InstructionResult) (s2 : S)
    (h : (do
        swap n
        pure StepOut.fallthrough : M StepOut) s = .fail (.ret r) s2) :
    s2 = s := by
  simp only [bind_app] at h
  cases hd : swap n s with
  | ok u s3 =>
    simp only [hd, pure_app] at h
    exact absurd h (by simp)
  | fail e s3 =>
    simp only [hd] at h
    cases h
    exact swap_fail _ _ _ _ hd

set_option maxHeartbeats 12000000 in
theorem lower_op_fail (env : ExecEnv) (cbs : Cbs) (prog : Program)
    (inst : InstData) (s : S) (r : InstructionResult) (s2 : S)
    (hcbs : ∀ cb args, (cbs cb args).1 ≠ .StackUnderflow
      ∧ (cbs cb args).1 ≠ .StackOverflow)
    (hnd : ¬(inst.opcode = 0x57 ∧ inst.flags.static_jump = false
      ∧ inst.flags.invalid_jump = false))
    (hr : r = .StackUnderflow ∨ r = .StackOverflow)
    (h : lower_op env cbs prog inst s = .fail (.ret r) s2) : s2 = s := by
  rw [lower_op] at h
  by_cases hk0 : inst.opcode = 0x00
  · rw [if_pos hk0] at h
    simp only [throwF_app] at h
    cases h
    rfl
  rw [if_neg hk0] at h
  by_cases hk1 : inst.opcode = 0x01
  · rw [if_pos hk1] at h
    exact binop_fail _ _ _ _ h
  rw [if_neg hk1] at h
  by_cases hk2 : inst.opcode = 0x02
  · rw [if_pos hk2] at h
    exact binop_fail _ _ _ _ h
  rw [if_neg hk2] at h
  by_cases hk3 : inst.opcode = 0x03
  · rw [if_pos hk3] at h
    exact binop_fail _ _ _ _ h
  rw [if_neg hk3] at h
  by_cases hk4 : inst.opcode = 0x04
  · rw [if_pos hk4] at h
    exact binop_fail _ _ _ _ h
  rw [if_neg hk4] at h
  by_cases hk5 : inst.opcode = 0x05
  · rw [if_pos hk5] at h
    exact binop_fail _ _ _ _ h
  rw [if_neg hk5] at h
  by_cases hk6 : inst.opcode = 0x06
  · rw [if_pos hk6] at h
    exact binop_fail _ _ _ _ h
  rw [if_neg hk6] at h
  by_cases hk7 : inst.opcode = 0x07
  · rw [if_pos hk7] at h
    exact binop_fail _ _ _ _ h
  rw [if_neg hk7] at h
  by_cases hk8 : inst.opcode = 0x08
  · rw [if_pos hk8] at h
    exact cb_top_plain_fail _ _ _ _ _ _ h
  rw [if_neg hk8] at h
  by_cases hk9 : inst.opcode = 0x09
  · rw [if_pos hk9] at h
    exact cb_top_plain_fail _ _ _ _ _ _ h
  rw [if_neg hk9] at h
  by_cases hk10 : inst.opcode = 0x0a
  · rw [if_pos hk10] at h
    exact resolve_ir_disj _ _ _ _ _ hcbs hr (cb_top_ir_fail _ _ _ _ _ _ h)
  rw [if_neg hk10] at h
  by_cases hk11 : inst.opcode = 0x0b
  · rw [if_pos hk11] at h
    exact binop_fail _ _ _ _ h
  rw [if_neg hk11] at h
  by_cases hk12 : inst.opcode = 0x10
  · rw [if_pos hk12] at h
    exact binop_fail _ _ _ _ h
  rw [if_neg hk12] at h
  by_cases hk13 : inst.opcode = 0x11
  · rw [if_pos hk13] at h
    exact binop_fail _ _ _ _ h
  rw [if_neg hk13] at h
  by_cases hk14 : inst.opcode = 0x12
  · rw [if_pos hk14] at h
    exact binop_fail _ _ _ _ h
  rw [if_neg hk14] at h
  by_cases hk15 : inst.opcode = 0x13
  · rw [if_pos hk15] at h
    exact binop_fail _ _ _ _ h
  rw [if_neg hk15] at h
  by_cases hk16 : inst.opcode = 0x14
  · rw [if_pos hk16] at h
    exact binop_fail _ _ _ _ h
  rw [if_neg hk16] at h
  by_cases hk17 : inst.opcode = 0x15
  · rw [if_pos hk17] at h
    exact unop_fail _ _ _ _ h
  rw [if_neg hk17] at h
  by_cases hk18 : inst.opcode = 0x16
  · rw [if_pos hk18] at h
    exact binop_fail _ _ _ _ h
  rw [if_neg hk18] at h
  by_cases hk19 : inst.opcode = 0x17
  · rw [if_pos hk19] at h
    exact binop_fail _ _ _ _ h
  rw [if_neg hk19] at h
  by_cases hk20 : inst.opcode = 0x18
  · rw [if_pos hk20] at h
    exact binop_fail _ _ _ _ h
  rw [if_neg hk20] at h
  by_cases hk21 : inst.opcode = 0x19
  · rw [if_pos hk21] at h
    exact unop_fail _ _ _ _ h
  rw [if_neg hk21] at h
  by_cases hk22 : inst.opcode = 0x1a
  · rw [if_pos hk22] at h
    exact binop_fail _ _ _ _ h
  rw [if_neg hk22] at h
  by_cases hk23 : inst.opcode = 0x1b
  · rw [if_pos hk23] at h
    exact binop_fail _ _ _ _ h
  rw [if_neg hk23] at h
  by_cases hk24 : inst.opcode = 0x1c
  · rw [if_pos hk24] at h
    exact binop_fail _ _ _ _ h
  rw [if_neg hk24] at h
  by_cases hk25 : inst.opcode = 0x1d
  · rw [if_pos hk25] at h
    exact binop_fail _ _ _ _ h
  rw [if_neg hk25] at h
  by_cases hk26 : inst.opcode = 0x20
  · rw [if_pos hk26] at h
    exact resolve_ir_disj _ _ _ _ _ hcbs hr (cb_top_ir_fail _ _ _ _ _ _ h)
  rw [if_neg hk26] at h
  by_cases hk27 : inst.opcode = 0x35
  · rw [if_pos hk27] at h
    exact pop1_pushunchecked_fail _ _ _ _ h
  rw [if_neg hk27] at h
  by_cases hk28 : inst.opcode = 0x50
  · rw [if_pos hk28] at h
    exact pop_only_fail _ _ _ h
  rw [if_neg hk28] at h
  by_cases hk29 : inst.opcode = 0x51
  · rw [if_pos hk29] at h
    exact resolve_ir_disj _ _ _ _ _ hcbs hr (cb_top_ir_fail _ _ _ _ _ _ h)
  rw [if_neg hk29] at h
  by_cases hk30 : inst.opcode = 0x52
  · rw [if_pos hk30] at h
    exact resolve_ir_disj _ _ _ _ _ hcbs hr (cb_pop_ir_fail _ _ _ _ _ _ h)
  rw [if_neg hk30] at h
  by_cases hk31 : inst.opcode = 0x53
  · rw [if_pos hk31] at h
    exact resolve_ir_disj _ _ _ _ _ hcbs hr (cb_pop_ir_fail _ _ _ _ _ _ h)
  rw [if_neg hk31] at h
  by_cases hk32 : inst.opcode = 0x54
  · rw [if_pos hk32] at h
    exact resolve_ir_disj _ _ _ _ _ hcbs hr (cb_top_ir_fail _ _ _ _ _ _ h)
  rw [if_neg hk32] at h
  by_cases hk33 : inst.opcode = 0x55
  · rw [if_pos hk33] at h
    exact resolve_ir_disj _ _ _ _ _ hcbs hr (guard_pop_ir_fail _ _ _ _ _ _ _ h)
  rw [if_neg hk33] at h
  by_cases hk34 : inst.opcode = 0x56 ∨ inst.opcode = 0x57
  · rw [if_pos hk34] at h
    exact jump_sem_fail _ _ _ _ _ hnd h
  rw [if_neg hk34] at h
  by_cases hk35 : inst.opcode = 0x58
  · rw [if_pos hk35] at h
    exact push_pure_fail _ _ _ _ h
  rw [if_neg hk35] at h
  by_cases hk36 : inst.opcode = 0x5a
  · rw [if_pos hk36] at h
    exact gas_push_fail _ _ _ h
  rw [if_neg hk36] at h
  by_cases hk37 : inst.opcode = 0x5b
  · rw [if_pos hk37] at h
    simp only [pure_app] at h
    exact absurd h (by simp)
  rw [if_neg hk37] at h
  by_cases hk38 : inst.opcode = 0x5c
  · rw [if_pos hk38] at h
    exact cb_top_plain_fail _ _ _ _ _ _ h
  rw [if_neg hk38] at h
  by_cases hk39 : inst.opcode = 0x5d
  · rw [if_pos hk39] at h
    exact guard_pop_plain_fail _ _ _ _ _ _ _ h
  rw [if_neg hk39] at h
  by_cases hk40 : inst.opcode = 0x5f
  · rw [if_pos hk40] at h
    exact push_pure_fail _ _ _ _ h
  rw [if_neg hk40] at h
  by_cases hk41 : 0x60 ≤ inst.opcode ∧ inst.opcode ≤ 0x7f
  · rw [if_pos hk41] at h
    exact push_pure_fail _ _ _ _ h
  rw [if_neg hk41] at h
  by_cases hk42 : 0x80 ≤ inst.opcode ∧ inst.opcode ≤ 0x8f
  · rw [if_pos hk42] at h
    exact dup_pure_fail _ _ _ _ h
  rw [if_neg hk42] at h
  by_cases hk43 : 0x90 ≤ inst.opcode ∧ inst.opcode ≤ 0x9f
  · rw [if_pos hk43] at h
    exact swap_pure_fail _ _ _ _ h
  rw [if_neg hk43] at h
  by_cases hk44 : 0xa0 ≤ inst.opcode ∧ inst.opcode ≤ 0xa4
  · rw [if_pos hk44] at h
    exact resolve_ir_disj _ _ _ _ _ hcbs hr (guard_pop_ir_fail _ _ _ _ _ _ _ h)
  rw [if_neg hk44] at h
  by_cases hk45 : inst.opcode = 0xf0
  · rw [if_pos hk45] at h
    exact resolve_ir_disj3 _ _ _ _ _ _ hcbs hr (by decide) (by decide) (create_common_fail _ _ _ _ _ _ h)
  rw [if_neg hk45] at h
  by_cases hk46 : inst.opcode = 0xf3
  · rw [if_pos hk46] at h
    exact resolve_ir_disj3 _ _ _ _ _ _ hcbs hr (by decide) (by decide) (return_then_fail _ _ _ _ _ h)
  rw [if_neg hk46] at h
  by_cases hk47 : inst.opcode = 0xf5
  · rw [if_pos hk47] at h
    exact resolve_ir_disj3 _ _ _ _ _ _ hcbs hr (by decide) (by decide) (create_common_fail _ _ _ _ _ _ h)
  rw [if_neg hk47] at h
  by_cases hk48 : inst.opcode = 0xfd
  · rw [if_pos hk48] at h
    exact resolve_ir_disj3 _ _ _ _ _ _ hcbs hr (by decide) (by decide) (return_then_fail _ _ _ _ _ h)
  rw [if_neg hk48] at h
  by_cases hk49 : inst.opcode = 0xfe
  · rw [if_pos hk49] at h
    simp only [throwF_app] at h
    cases h
    rfl
  rw [if_neg hk49] at h
  by_cases hk50 : inst.opcode = 0xff
  · rw [if_pos hk50] at h
    exact resolve_ir_disj3 _ _ _ _ _ _ hcbs hr (by decide) (by decide) (selfdestruct_shape_fail _ _ _ _ _ h)
  rw [if_neg hk50] at h
  simp only [throwF_app] at h
  exact absurd h (by simp)



theorem lower_op_at_sdiv (env : ExecEnv) (cbs : Cbs) (prog : Program)
    (inst : InstData) (s : S) (hop : inst.opcode = 0x05) :
    lower_op env cbs prog inst s = binop sdivFn s := by
  simp only [lower_op, hop]
  norm_num

theorem lower_op_at_cdl (env : ExecEnv) (cbs : Cbs) (prog : Program)
    (inst : InstData) (s : S) (hop : inst.opcode = 0x35) :
    lower_op env cbs prog inst s =
      (do
        let index ← pop1
        push_unchecked (calldataload_value env.calldata index)
        pure StepOut.fallthrough : M StepOut) s := by
  simp only [lower_op, hop]
  norm_num

theorem lower_op_at_push_imm (env : ExecEnv) (cbs : Cbs) (prog : Program)
    (inst : InstData) (s : S) (ho1 : 0x60 ≤ inst.opcode)
    (ho2 : inst.opcode ≤ 0x7f) :
    lower_op env cbs prog inst s =
      (do
        push (push_value prog.raw inst)
        pure StepOut.fallthrough : M StepOut) s := by
  simp only [lower_op]
  repeat rw [if_neg (by omega)]
  rw [if_pos (by omega)]

theorem charge_static_app_err (dis : Bool) (g : Option Nat) (s : S)
    (r : InstructionResult) (h : static_charge dis g s.gas = .error r) :
    charge_static dis g s = .fail (.ret r) s := by
  rw [charge_static, h]

/-- C9 amended: whenever an instruction's lowered code returns
`StackUnderflow` or `StackOverflow` from one of its stack-bound checks
(callbacks, which cannot observe the length word, are assumed never to
report a stack error themselves), the stack area, the stack length and the
callback trace hold exactly the values they held when the instruction's
lowering began — for every embedded opcode except a dynamic `JUMPI`, which
pops its 256-bit target before the condition's bound check runs, so that
check observes the length already decremented by one (see the
counterexample). -/
theorem translate_inst_stack_fail (env : ExecEnv) (cbs : Cbs) (prog : Program)
    (inst : InstData) (s : S) (r : InstructionResult) (s2 : S)
    (hcbs : ∀ cb args, (cbs cb args).1 ≠ .StackUnderflow
      ∧ (cbs cb args).1 ≠ .StackOverflow)
    (hnd : ¬(inst.opcode = 0x57 ∧ inst.flags.static_jump = false
      ∧ inst.flags.invalid_jump = false))
    (hrun : translate_inst env cbs prog inst s = .fail (.ret r) s2)
    (hr : r = .StackUnderflow ∨ r = .StackOverflow) :
    s2.stack = s.stack ∧ s2.len = s.len ∧ s2.trace = s.trace := by
  rw [translate_inst] at hrun
  by_cases hd : inst.flags.disabled = true
  · rw [if_pos hd] at hrun
    simp only [throwF_app] at hrun
    cases hrun
    rcases hr with hh | hh
    · exact absurd hh (by decide)
    · exact absurd hh (by decide)
  rw [if_neg hd] at hrun
  by_cases hu : inst.flags.unknown = true
  · rw [if_pos hu] at hrun
    simp only [throwF_app] at hrun
    cases hrun
    rcases hr with hh | hh
    · exact absurd hh (by decide)
    · exact absurd hh (by decide)
  rw [if_neg hu] at hrun
  simp only [bind_app] at hrun
  cases hsc : static_charge env.disable_gas inst.static_gas s.gas with
  | error r3 =>
    simp only [charge_static_app_err env.disable_gas inst.static_gas s r3 hsc]
      at hrun
    cases hrun
    exact ⟨rfl, rfl, rfl⟩
  | ok g2 =>
    simp only [charge_static_app_ok env.disable_gas inst.static_gas s g2 hsc]
      at hrun
    by_cases hsk : inst.flags.skip_logic = true
    · simp only [ite_app, if_pos hsk, pure_app] at hrun
      exact absurd hrun (by simp)
    · simp only [ite_app, if_neg hsk] at hrun
      have h2 := lower_op_fail env cbs prog inst _ r s2 hcbs hnd hr hrun
      rw [h2]
      exact ⟨rfl, rfl, rfl⟩


/-! ## Claim C4: SDIV -/

/-- C4: an executed SDIV pops the dividend `a` (the top word, popped first)
and the divisor `b` and pushes `sdivFn a b` in place, where: a zero divisor
yields 0; the pair `(I256_MIN, -1)` (the all-ones word) yields `I256_MIN`
via the explicit select around the hardware quotient; every other pair
yields the 256-bit two's-complement truncated signed quotient. -/
theorem c4_sdiv (env : ExecEnv) (cbs : Cbs) (prog : Program) (inst : InstData)
    (s : S) (g2 : Gas) (hop : inst.opcode = 0x05) (hfl : inst.flags = {})
    (hg : static_charge env.disable_gas inst.static_gas s.gas = .ok g2)
    (hlen : 2 ≤ s.len) (hcap : s.len ≤ 1024) :
    (translate_inst env cbs prog inst s = .ok .fallthrough
      { s with gas := g2,
               stack := updFn s.stack (s.len - 2)
                 (sdivFn (s.stack (s.len - 1)) (s.stack (s.len - 2))),
               len := s.len - 1 })
    ∧ (∀ a b : Nat, b = 0 → sdivFn a b = 0)
    ∧ (∀ a b : Nat, a = I256_MIN → b = wordMod - 1 → sdivFn a b = I256_MIN)
    ∧ (∀ a b : Nat, b ≠ 0 → ¬(a = I256_MIN ∧ b = wordMod - 1) →
        sdivFn a b = ofSigned (itdiv (toSigned a) (toSigned b))) := by
  refine ⟨?_, ?_, ?_, ?_⟩
  · rw [translate_inst_normal env cbs prog inst s g2 hfl hg,
      lower_op_at_sdiv env cbs prog inst _ hop]
    have hb := binop_app sdivFn { s with gas := g2 } (by simpa) (by simpa)
    simpa using hb
  · intro a b hb
    simp [sdivFn, hb]
  · intro a b ha hb
    rw [sdivFn, if_neg (by rw [hb]; norm_num [wordMod]), if_pos ⟨ha, hb⟩]
  · intro a b hb hedge
    rw [sdivFn, if_neg hb, if_neg hedge]

/-- Witness for C4: SDIV at the concrete state whose stack holds the
dividend `I256_MIN` on top of the divisor `-1`, producing `I256_MIN`. -/
theorem c4_sdiv_witness :
    (2 ≤ sSdiv.len ∧ sSdiv.len ≤ 1024) ∧
    translate_inst env0 cbs0 progAdd instSdiv sSdiv = .ok .fallthrough
      { sSdiv with
          gas := gas995,
          stack := updFn sSdiv.stack 0 (sdivFn (sSdiv.stack 1) (sSdiv.stack 0)),
          len := 1 } ∧
    sdivFn I256_MIN (wordMod - 1) = I256_MIN :=
  ⟨⟨by decide, by decide⟩,
   (c4_sdiv env0 cbs0 progAdd instSdiv sSdiv gas995 rfl rfl rfl
     (by decide) (by decide)).1,
   (c4_sdiv env0 cbs0 progAdd instSdiv sSdiv gas995 rfl rfl rfl
     (by decide) (by decide)).2.2.1 I256_MIN (wordMod - 1) rfl rfl⟩

/-! ## Claim C5: the static-call guard -/

/-- C5: for SSTORE, TSTORE, LOG0..LOG4, CREATE, CREATE2 and SELFDESTRUCT
executed while `ecx.is_static` is set, the compiled function returns
`StateChangeDuringStaticCall` before invoking any callback: the stack, the
stack length and the callback trace are exactly as before the instruction
(only the static gas has been charged). -/
theorem c5_static_guard (env : ExecEnv) (cbs : Cbs) (prog : Program)
    (inst : InstData) (s : S) (g2 : Gas)
    (hop : inst.opcode ∈ state_change_ops) (hfl : inst.flags = {})
    (hst : env.is_static = true)
    (hg : static_charge env.disable_gas inst.static_gas s.gas = .ok g2) :
    translate_inst env cbs prog inst s =
      .fail (.ret .StateChangeDuringStaticCall) { s with gas := g2 } := by
  rw [translate_inst_normal env cbs prog inst s g2 hfl hg]
  simp only [state_change_ops, List.mem_cons, List.not_mem_nil, or_false] at hop
  rcases hop with h | h | h | h | h | h | h | h | h | h
  all_goals (simp only [lower_op, h]; norm_num)
  all_goals simp [create_common, fail_if_staticcall, build_failure, hst]

/-- Witness for C5: SSTORE inside a static call returns
`StateChangeDuringStaticCall` with no callback invoked. -/
theorem c5_static_guard_witness :
    instSstoreS.opcode ∈ state_change_ops ∧
    envStatic.is_static = true ∧
    translate_inst envStatic cbs0 progAdd instSstoreS s0 =
      .fail (.ret .StateChangeDuringStaticCall) { s0 with gas := s0.gas } :=
  ⟨by decide, rfl,
   c5_static_guard envStatic cbs0 progAdd instSstoreS s0 s0.gas (by decide)
     rfl rfl rfl⟩

/-! ## Claim C7: CALLDATALOAD -/

/-- C7: an executed CALLDATALOAD pops the index and pushes
`calldataload_value` in place: zero when the index is at or beyond the
calldata length, otherwise the big-endian word formed by the
`min(32, len - index)` bytes from `input + index` placed at the start of a
zeroed 32-byte slot. -/
theorem c7_calldataload (env : ExecEnv) (cbs : Cbs) (prog : Program)
    (inst : InstData) (s : S) (g2 : Gas)
    (hop : inst.opcode = 0x35) (hfl : inst.flags = {})
    (hg : static_charge env.disable_gas inst.static_gas s.gas = .ok g2)
    (hlen : 1 ≤ s.len) (hcap : s.len ≤ 1024) :
    (translate_inst env cbs prog inst s = .ok .fallthrough
      { s with gas := g2,
               stack := updFn s.stack (s.len - 1)
                 (calldataload_value env.calldata (s.stack (s.len - 1))),
               len := s.len })
    ∧ (∀ index : Nat, env.calldata.length ≤ index →
        calldataload_value env.calldata index = 0)
    ∧ (∀ index : Nat, index < env.calldata.length →
        calldataload_value env.calldata index =
          beWordPad32 ((env.calldata.drop index).take
            (min 32 (env.calldata.length - index)))) := by
  refine ⟨?_, ?_, ?_⟩
  · rw [translate_inst_normal env cbs prog inst s g2 hfl hg,
      lower_op_at_cdl env cbs prog inst _ hop]
    have hp := pop1_app { s with gas := g2 } (by simpa) (by simpa)
    have hu := push_unchecked_app
      (calldataload_value env.calldata (s.stack (s.len - 1)))
      { s with gas := g2, len := s.len - 1 } (by simp; omega)
    simp only [bind_app, hp]
    simp only [show ({ s with gas := g2, len := s.len - 1 } : S)
        = { s with gas := g2, len := s.len - 1 } from rfl] at hu
    simp only [hu, pure_app]
    simp only [show s.len - 1 + 1 = s.len from by omega]
  · intro index hix
    rw [calldataload_value, if_neg (by omega)]
  · intro index hix
    rw [calldataload_value, if_pos hix, Nat.min_comm]

/-- Witness for C7: CALLDATALOAD of index 1 from the two-byte calldata
`[0xaa, 0xbb]` pushes the word `0xbb` followed by 31 zero bytes; index 2 is
out of bounds and yields 0. -/
theorem c7_calldataload_witness :
    (1 ≤ sOne.len ∧ sOne.len ≤ 1024) ∧
    translate_inst envCd cbs0 progAdd instCdl sOne = .ok .fallthrough
      { sOne with
          gas := gas997,
          stack := updFn sOne.stack 0 (calldataload_value envCd.calldata 1),
          len := 1 } ∧
    calldataload_value envCd.calldata 1 = 0xbb * 256 ^ 31 ∧
    calldataload_value envCd.calldata 2 = 0 :=
  ⟨⟨by decide, by decide⟩,
   (c7_calldataload envCd cbs0 progAdd instCdl sOne gas997 rfl rfl rfl
     (by decide) (by decide)).1,
   by decide,
   (c7_calldataload envCd cbs0 progAdd instCdl sOne gas997 rfl rfl rfl
     (by decide) (by decide)).2.1 2 (by decide)⟩

/-! ## Claim C10: PUSH immediates -/

/-- C10: an executed PUSH1..PUSH32 pushes `push_value`: the value 0 when the
immediate extends past the end of the raw code (the analyser yields no
immediate slice), and otherwise the big-endian interpretation of the
immediate bytes zero-extended to 256 bits. -/
theorem c10_push_immediate (env : ExecEnv) (cbs : Cbs) (prog : Program)
    (inst : InstData) (s : S) (g2 : Gas)
    (ho1 : 0x60 ≤ inst.opcode) (ho2 : inst.opcode ≤ 0x7f)
    (hfl : inst.flags = {})
    (hg : static_charge env.disable_gas inst.static_gas s.gas = .ok g2)
    (hcap : s.len ≤ 1023) :
    (translate_inst env cbs prog inst s = .ok .fallthrough
      { s with gas := g2,
               stack := updFn s.stack s.len (push_value prog.raw inst),
               len := s.len + 1 })
    ∧ (prog.raw.length < inst.data + (inst.opcode - 0x5f) →
        push_value prog.raw inst = 0)
    ∧ (inst.data + (inst.opcode - 0x5f) ≤ prog.raw.length →
        push_value prog.raw inst =
          beWord ((prog.raw.drop inst.data).take (inst.opcode - 0x5f))) := by
  refine ⟨?_, ?_, ?_⟩
  · rw [translate_inst_normal env cbs prog inst s g2 hfl hg,
      lower_op_at_push_imm env cbs prog inst _ ho1 ho2]
    have hp := push_app (push_value prog.raw inst) { s with gas := g2 }
      (by simp; omega)
    simp only [bind_app, hp, pure_app]
  · intro hlt
    have hgi : get_imm prog.raw inst.data (inst.opcode - 0x5f) = none := by
      rw [get_imm, if_neg (by omega)]
    simp [push_value, hgi]
  · intro hle
    have hgi : get_imm prog.raw inst.data (inst.opcode - 0x5f)
        = some ((prog.raw.drop inst.data).take (inst.opcode - 0x5f)) := by
      rw [get_imm, if_pos hle]
    simp [push_value, hgi]

/-- Witness for C10: the truncated bytecode `[PUSH2, 0xab]` pushes 0. -/
theorem c10_push_immediate_witness :
    (0x60 ≤ instPush2.opcode ∧ instPush2.opcode ≤ 0x7f) ∧
    translate_inst env0 cbs0 progPushTrunc instPush2 s0 = .ok .fallthrough
      { s0 with
          gas := gas997,
          stack := updFn s0.stack 0 (push_value progPushTrunc.raw instPush2),
          len := 1 } ∧
    push_value progPushTrunc.raw instPush2 = 0 :=
  ⟨⟨by decide, by decide⟩,
   (c10_push_immediate env0 cbs0 progPushTrunc instPush2 s0 gas997
     (by decide) (by decide) rfl rfl (by decide)).1,
   (c10_push_immediate env0 cbs0 progPushTrunc instPush2 s0 gas997
     (by decide) (by decide) rfl rfl (by decide)).2.1 (by decide)⟩

/-! ## Claim C9: state at stack-bound-check failures -/

/-- C9 counterexample: a dynamic JUMPI executed with exactly one stack word
returns `StackUnderflow` from the condition's bound check, but the stack
length at that point is 0, not the 1 it held when the instruction's
lowering began: the target was popped before the condition's check. -/
theorem c9_counterexample :
    s0len1.len = 1 ∧
    (exec_from env0 cbs0 progJumpi 5 0 s0len1).code = some .StackUnderflow ∧
    (exec_from env0 cbs0 progJumpi 5 0 s0len1).finalState.len = 0 :=
  ⟨by decide, by decide, by decide⟩

/-- Witness for the amended C9: ADD on an empty stack fails its bound check
with the stack, length and trace unchanged (only the static gas of 3 was
charged). -/
theorem c9_stack_fail_witness :
    (instAdd.opcode ≠ 0x57) ∧
    translate_inst env0 cbs0 progAdd instAdd s0 =
      .fail (.ret .StackUnderflow) sAdd3 ∧
    sAdd3.stack = s0.stack ∧ sAdd3.len = s0.len ∧ sAdd3.trace = s0.trace :=
  ⟨by decide, by rfl,
   translate_inst_stack_fail env0 cbs0 progAdd instAdd s0 .StackUnderflow
     sAdd3 (fun _ _ => ⟨(fun hh => nomatch hh), (fun hh => nomatch hh)⟩)
     (fun hh => absurd hh.1 (by decide)) (by rfl) (Or.inl rfl)⟩

end RevmJit
